import Mathlib

/-!
Verification development for the CoLRev package/endpoint extension system
(`colrev/env/package_manager.py`) and the prescreen operation
(`colrev/ops/prescreen.py`).

The Python code is shallowly embedded: Python dicts become association
lists (insertion-ordered, like Python dicts), Python exceptions become an
`Except PyErr` result, and the effectful collaborators of the package
manager (`importlib.import_module`, `getattr` on modules, `Path.is_file`,
class instantiation, `zope.interface.verify.verifyObject`) become fields
of an explicit environment record `PyEnv`.  Strings stand for the opaque
Python objects (modules, classes, instances) that the environment hands
back.  A second, heap-instrumented embedding of `load_packages` is given
further below to reason about object identity and mutation (deep copies).
-/

/-- Python exceptions raised (or caught) by the embedded code. -/
inductive PyErr where
  | moduleNotFound (m : String)
  | attributeError (a : String)
  | missingDependency (msg : String)
  | colrevException (msg : String)
  | keyError (k : String)
  | assertionError
  | valueError
  | typeError
  | runtimeError (msg : String)
  deriving DecidableEq, Repr

deriving instance DecidableEq for Except

/-! ### Association lists with Python-dict semantics -/

/-- Lookup of the first binding of a key (Python `d[k]` / `k in d`). -/
def alLookup [DecidableEq α] : List (α × β) → α → Option β
  | [], _ => none
  | (k, v) :: rest, k' => if k' = k then some v else alLookup rest k'

/-- Python `d[k] = v`: replace the binding in place, or append a new one. -/
def alUpdate [DecidableEq α] : List (α × β) → α → β → List (α × β)
  | [], k, v => [(k, v)]
  | (k', v') :: rest, k, v =>
      if k = k' then (k, v) :: rest else (k', v') :: alUpdate rest k v

/-- Modify the binding of a key in place (no-op when absent). -/
def alModify [DecidableEq α] : List (α × β) → α → (β → β) → List (α × β)
  | [], _, _ => []
  | (k', v) :: rest, k, f =>
      if k = k' then (k, f v) :: rest else (k', v) :: alModify rest k f

/-- Python `d.pop(k, None)` / `del d[k]` on a present key. -/
def alErase [DecidableEq α] : List (α × β) → α → List (α × β)
  | [], _ => []
  | (k', v) :: rest, k => if k = k' then rest else (k', v) :: alErase rest k

/-! ### Python string primitives (ASCII fragment, which covers the
registry identifiers and dotted paths the code manipulates) -/

/-- Python `str.lower()` on the ASCII fragment. -/
def pyLower (s : String) : String := String.mk (s.data.map Char.toLower)

/-- Python `str.islower()`: some cased character, and every cased
character lowercase (ASCII fragment; cased means alphabetic). -/
def pyIsLower (s : String) : Bool :=
  s.data.any (fun c => c.isAlpha) && s.data.all (fun c => !c.isAlpha || c.isLower)

/-- Python `c in s` for a single character. -/
def pyContainsChar (s : String) (c : Char) : Bool := s.data.any (fun d => d = c)

/-- Helper for `pySplit`: accumulate characters up to each separator. -/
def pySplitAux (sep : Char) : List Char → List Char → List String
  | [], acc => [String.mk acc.reverse]
  | c :: cs, acc =>
      if c = sep then String.mk acc.reverse :: pySplitAux sep cs []
      else pySplitAux sep cs (c :: acc)

/-- Python `s.split(sep)` for a one-character separator
(`"".split(",") = [""]`, empty fields kept). -/
def pySplit (s : String) (sep : Char) : List String := pySplitAux sep s.data []

/-- Everything before the last dot: `s.rsplit(".", 1)[0]`
(the whole string when there is no dot). -/
def rsplitModule (s : String) : String :=
  let parts := pySplit s '.'
  if parts.length ≤ 1 then s else String.intercalate "." parts.dropLast

/-- Everything after the last dot: `s.rsplit(".", 1)[-1]`
(the whole string when there is no dot). -/
def rsplitAttr (s : String) : String := (pySplit s '.').getLastD ""

/-! ### The data model of `package_manager.py` -/

/-- The `PackageEndpointType` enum, constructors in source order. -/
inductive PackageEndpointType where
  | review_type
  | load_conversion
  | search_source
  | prep
  | prep_man
  | dedupe
  | prescreen
  | pdf_get
  | pdf_get_man
  | pdf_prep
  | pdf_prep_man
  | screen
  | data
  deriving DecidableEq, Repr

/-- The members of `PackageEndpointType` in their source declaration
order (the iteration order of the Python enum). -/
def packageEndpointTypeOrder : List PackageEndpointType :=
  [.review_type, .load_conversion, .search_source, .prep, .prep_man,
   .dedupe, .prescreen, .pdf_get, .pdf_get_man, .pdf_prep, .pdf_prep_man,
   .screen, .data]

/-- Position of a member in the enum's declaration order. -/
def listIndexOf [DecidableEq α] (a : α) : List α → Nat
  | [] => 0
  | b :: l => if a = b then 0 else listIndexOf a l + 1

/-- Index of a stage type in the enum's declaration order. -/
def stageIndex (t : PackageEndpointType) : Nat :=
  listIndexOf t packageEndpointTypeOrder

/-- The `value` string of each enum member (equal to its name). -/
def typeValue : PackageEndpointType → String
  | .review_type => "review_type"
  | .load_conversion => "load_conversion"
  | .search_source => "search_source"
  | .prep => "prep"
  | .prep_man => "prep_man"
  | .dedupe => "dedupe"
  | .prescreen => "prescreen"
  | .pdf_get => "pdf_get"
  | .pdf_get_man => "pdf_get_man"
  | .pdf_prep => "pdf_prep"
  | .pdf_prep_man => "pdf_prep_man"
  | .screen => "screen"
  | .data => "data"

/-- Python `str(member)` for this enum (`"PackageEndpointType.prep"`). -/
def pyStrType (t : PackageEndpointType) : String :=
  "PackageEndpointType." ++ typeValue t

/-- `PackageEndpointType[key]`: lookup of an enum member by name. -/
def endpointTypeOfString : String → Option PackageEndpointType
  | "review_type" => some .review_type
  | "load_conversion" => some .load_conversion
  | "search_source" => some .search_source
  | "prep" => some .prep
  | "prep_man" => some .prep_man
  | "dedupe" => some .dedupe
  | "prescreen" => some .prescreen
  | "pdf_get" => some .pdf_get
  | "pdf_get_man" => some .pdf_get_man
  | "pdf_prep" => some .pdf_prep
  | "pdf_prep_man" => some .pdf_prep_man
  | "screen" => some .screen
  | "data" => some .data
  | _ => none

/-- One row of `PackageManager.package_type_overview`.  The zope
interface class is represented by its name. -/
structure PackageTypeInfo where
  import_name : String
  custom_class : String
  operation_name : String
  deriving DecidableEq, Repr

/-- `PackageManager.package_type_overview`: every member of the enum is a
key of the dict, so the embedding is a total function. -/
def package_type_overview : PackageEndpointType → PackageTypeInfo
  | .review_type => ⟨"ReviewTypePackageInterface", "CustomReviewType", "operation"⟩
  | .load_conversion => ⟨"LoadConversionPackageInterface", "CustomLoad", "load_operation"⟩
  | .search_source => ⟨"SearchSourcePackageInterface", "CustomSearchSource", "source_operation"⟩
  | .prep => ⟨"PrepPackageInterface", "CustomPrep", "prep_operation"⟩
  | .prep_man => ⟨"PrepManPackageInterface", "CustomPrepMan", "prep_man_operation"⟩
  | .dedupe => ⟨"DedupePackageInterface", "CustomDedupe", "dedupe_operation"⟩
  | .prescreen => ⟨"PrescreenPackageInterface", "CustomPrescreen", "prescreen_operation"⟩
  | .pdf_get => ⟨"PDFGetPackageInterface", "CustomPDFGet", "pdf_get_operation"⟩
  | .pdf_get_man => ⟨"PDFGetManPackageInterface", "CustomPDFGetMan", "pdf_get_man_operation"⟩
  | .pdf_prep => ⟨"PDFPrepPackageInterface", "CustomPDFPrep", "pdf_prep_operation"⟩
  | .pdf_prep_man => ⟨"PDFPrepManPackageInterface", "CustomPDFPrepMan", "pdf_prep_man_operation"⟩
  | .screen => ⟨"ScreenPackageInterface", "CustomScreen", "screen_operation"⟩
  | .data => ⟨"DataPackageInterface", "CustomData", "data_operation"⟩

/-- The key set of `package_type_overview` (all enum members). -/
def packageTypeOverviewKeys : List PackageEndpointType := packageEndpointTypeOrder

/-- One registry entry of `self.packages[package_type]`: the metadata
dict for one identifier.  `installed` is `none` while the key is absent
(before `__flag_installed_packages` runs); `description` is `none` while
absent and `some d` after `discover_packages` attaches `__doc__` (itself
an optional string, since `__doc__` can be Python `None`). -/
structure PackageEntry where
  endpoint : String
  installed : Option Bool := none
  description : Option (Option String) := none
  deriving DecidableEq, Repr

/-- `self.packages`: type → identifier → metadata. -/
abbrev Registry := List (PackageEndpointType × List (String × PackageEntry))

/-- Settings values: strings, or opaque non-string values (nested dicts
and the like, which the package manager never inspects). -/
inductive SVal where
  | str (s : String)
  | blob (tag : Nat)
  deriving DecidableEq, Repr

/-- A selected-package settings dict from project settings. -/
abbrev Settings := List (String × SVal)

/-- A constructor argument of an endpoint: the injected operation object,
a settings dict (pure embedding), or a settings dict reference (heap
embedding below). -/
inductive ParamVal where
  | op
  | settings (s : Settings)
  | settingsRef (r : Nat)
  deriving DecidableEq, Repr

/-- The effectful collaborators of `PackageManager`, as an explicit
environment.  Modules, classes and instances are opaque handles
(strings). -/
structure PyEnv where
  importModule : String → Except PyErr String
  getattrM : String → String → Except PyErr String
  isFile : String → Bool
  doc : String → Option String
  instantiate : String → List (String × ParamVal) → Except PyErr String
  verify : String → String → Except PyErr Unit
  jsonParse : String →
    Except PyErr (List (String × List (String × List (String × String))))

/-! ### `load_package_endpoint` -/

/-- `PackageManager.load_package_endpoint`: lowercase the identifier,
raise `MissingDependencyError` when it is not registered for the type,
otherwise import the module part of the entry's dotted `endpoint` path
and take the attribute named by its last component. -/
def load_package_endpoint (env : PyEnv) (packages : Registry)
    (package_type : PackageEndpointType) (package_identifier : String) :
    Except PyErr String :=
  let pid := pyLower package_identifier
  match alLookup packages package_type with
  | none => .error (.keyError (pyStrType package_type))
  | some m =>
    match alLookup m pid with
    | none =>
        .error (.missingDependency
          (pid ++ " (" ++ pyStrType package_type ++ ") not available"))
    | some entry =>
        match env.importModule (rsplitModule entry.endpoint) with
        | .error e => .error e
        | .ok md => env.getattrM md (rsplitAttr entry.endpoint)

/-- Whether `load_package_endpoint` succeeds. -/
def loadOk (env : PyEnv) (packages : Registry) (t : PackageEndpointType)
    (id : String) : Bool :=
  match load_package_endpoint env packages t id with
  | .ok _ => true
  | .error _ => false

/-- Whether a result failed with `ModuleNotFoundError` or
`AttributeError` (the exceptions caught by `__flag_installed_packages`). -/
def isMnfAttr : Except PyErr String → Bool
  | .error (.moduleNotFound _) => true
  | .error (.attributeError _) => true
  | _ => false

/-- Whether an exception is `ModuleNotFoundError` or `AttributeError`. -/
def isMnfAttrErr : PyErr → Bool
  | .moduleNotFound _ => true
  | .attributeError _ => true
  | _ => false

/-! ### `load_package_endpoints_index` and `__init__` -/

/-- The asserts of `load_package_endpoints_index`, for each entry of one
package type.  `package_identifier` is a string, so
`assert " " not in package_identifier` is a substring check; but
`package_path` is the identifier's metadata **dict** (the code later
reads `["endpoint"]` from it and writes `["installed"]`), so
`assert " " not in package_path` is a dict *key membership* test — the
endpoint path string itself is never checked for spaces. -/
def checkIndexEntries : List (String × List (String × String)) → Except PyErr Unit
  | [] => .ok ()
  | (id, md) :: rest =>
      if pyContainsChar id ' ' then .error .assertionError
      else if (alLookup md " ").isSome then .error .assertionError
      else if !pyIsLower id then .error .assertionError
      else checkIndexEntries rest

/-- Build `self.packages` from the parsed JSON dict, keying by
`PackageEndpointType[key]` and running the asserts.  Each identifier's
metadata dict is represented by the `PackageEntry` record: its
`endpoint` field is the dict's `"endpoint"` value (the only key the
package manager ever reads; the index loader itself performs no check
that the key is present, so a dict lacking it is represented with an
empty path — its eventual `KeyError` inside `load_package_endpoint` is
outside this abstraction). -/
def buildRegistry :
    List (String × List (String × List (String × String))) → Except PyErr Registry
  | [] => .ok []
  | (key, value) :: rest =>
    match endpointTypeOfString key with
    | none => .error (.keyError key)
    | some t =>
      match checkIndexEntries value with
      | .error e => .error e
      | .ok _ =>
        match buildRegistry rest with
        | .error e => .error e
        | .ok packages =>
            .ok ((t, value.map (fun p =>
              (p.1, ({ endpoint := (alLookup p.2 "endpoint").getD "" } : PackageEntry)))) :: packages)

/-- `PackageManager.load_package_endpoints_index`: raise
`CoLRevException` when the packaged index file yields no content
(`None` or empty), otherwise parse the JSON and build the registry. -/
def load_package_endpoints_index (env : PyEnv) (filedata : Option String) :
    Except PyErr Registry :=
  match filedata with
  | none =>
      .error (.colrevException
        "Package index not available (colrev/template/package_endpoints.json)")
  | some s =>
      if s = "" then
        .error (.colrevException
          "Package index not available (colrev/template/package_endpoints.json)")
      else
        match env.jsonParse s with
        | .error e => .error e
        | .ok package_dict => buildRegistry package_dict

/-- Modify one registry entry in place (the registry analogue of
mutating `self.packages[t][id]` through a Python reference). -/
def modifyEntryAt (reg : Registry) (t : PackageEndpointType) (id : String)
    (f : PackageEntry → PackageEntry) : Registry :=
  alModify reg t (fun m => alModify m id f)

/-- Inner loop of `__flag_installed_packages` for one package type:
try `load_package_endpoint` for each identifier, set `installed` to
`True` on success and to `False` on `AttributeError` or
`ModuleNotFoundError`; any other exception propagates. -/
def flagEntries (env : PyEnv) (t : PackageEndpointType) :
    Registry → List String → Except PyErr Registry
  | reg, [] => .ok reg
  | reg, id :: ids =>
    match load_package_endpoint env reg t id with
    | .ok _ =>
        flagEntries env t
          (modifyEntryAt reg t id (fun e => { e with installed := some true })) ids
    | .error (.moduleNotFound _) =>
        flagEntries env t
          (modifyEntryAt reg t id (fun e => { e with installed := some false })) ids
    | .error (.attributeError _) =>
        flagEntries env t
          (modifyEntryAt reg t id (fun e => { e with installed := some false })) ids
    | .error e => .error e

/-- Outer loop of `__flag_installed_packages` over the package types. -/
def flagTypes (env : PyEnv) :
    Registry → List PackageEndpointType → Except PyErr Registry
  | reg, [] => .ok reg
  | reg, t :: ts =>
    match alLookup reg t with
    | none => flagTypes env reg ts
    | some m =>
      match flagEntries env t reg (m.map Prod.fst) with
      | .ok reg1 => flagTypes env reg1 ts
      | .error e => .error e

/-- `PackageManager.__flag_installed_packages`. -/
def flag_installed_packages (env : PyEnv) (reg : Registry) :
    Except PyErr Registry :=
  flagTypes env reg (reg.map Prod.fst)

/-- `PackageManager.__init__`: load the endpoints index, then flag the
installed packages. -/
def packageManagerInit (env : PyEnv) (filedata : Option String) :
    Except PyErr Registry :=
  match load_package_endpoints_index env filedata with
  | .error e => .error e
  | .ok packages => flag_installed_packages env packages

/-! ### `discover_packages` -/

/-- Body of the `discover_packages` loop for one non-skipped entry:
load the endpoint class, attach its `__doc__` as `description`, and
re-assign the `installed` flag (a `KeyError` when the flag is absent). -/
def discoverStepRes (env : PyEnv) (t : PackageEndpointType) (reg : Registry)
    (id : String) (e : PackageEntry) : Except PyErr Registry :=
  match load_package_endpoint env reg t id with
  | .error err => .error err
  | .ok c =>
    let reg1 := modifyEntryAt reg t id
      (fun e0 => { e0 with description := some (env.doc c) })
    match e.installed with
    | none => .error (.keyError "installed")
    | some b =>
        .ok (modifyEntryAt reg1 t id (fun e0 => { e0 with installed := some b }))

/-- The `discover_packages` loop: entries flagged not-installed are
skipped (left untouched) when `installed_only` is set; all other entries
get a `description` attached.  The loop mutates `self.packages[t]` in
place, so the registry is threaded through. -/
def discoverGo (env : PyEnv) (t : PackageEndpointType) (installed_only : Bool) :
    Registry → List (String × PackageEntry) → Except PyErr Registry
  | reg, [] => .ok reg
  | reg, (id, e) :: rest =>
    if installed_only then
      match e.installed with
      | none => .error (.keyError "installed")
      | some false => discoverGo env t installed_only reg rest
      | some true =>
        match discoverStepRes env t reg id e with
        | .error err => .error err
        | .ok reg1 => discoverGo env t installed_only reg1 rest
    else
      match discoverStepRes env t reg id e with
      | .error err => .error err
      | .ok reg1 => discoverGo env t installed_only reg1 rest

/-- `PackageManager.discover_packages`: returns
`self.packages[package_type]` (the very mapping, after the loop attached
descriptions). -/
def discover_packages (env : PyEnv) (reg : Registry)
    (package_type : PackageEndpointType) (installed_only : Bool) :
    Except PyErr (List (String × PackageEntry)) :=
  match alLookup reg package_type with
  | none => .error (.keyError (pyStrType package_type))
  | some m =>
    match discoverGo env package_type installed_only reg m with
    | .error e => .error e
    | .ok regF =>
      match alLookup regF package_type with
      | some mF => .ok mF
      | none => .error (.keyError (pyStrType package_type))

/-! ### `__get_packages_dict` -/

/-- One value of the `packages_dict` built by `__get_packages_dict`:
the (copied) settings dict, an optional `endpoint` (class or module
handle; absent for skipped not-installed built-ins), and the
`custom_flag` marker. -/
structure PkgInfo where
  settings : Settings
  endpoint : Option String := none
  custom_flag : Bool := false
  deriving DecidableEq, Repr

/-- The `packages_dict` threaded through `load_packages`. -/
abbrev PackagesDict := List (String × PkgInfo)

/-- Processing of one selected package by `__get_packages_dict`
(the body of its `for` loop), together with the console log:
1. identifiers in the built-in registry are loaded from it (skipped with
   a console message when flagged not installed);
2. `elif ignore_not_available:` an identifier absent from the registry
   raises `MissingDependencyError`;
3. otherwise, when no file `<identifier>.py` exists, the identifier is
   imported as an installed Python module (only `ModuleNotFoundError`
   is caught there);
4. otherwise it is imported as a custom package from the project
   directory (`sys.path` manipulation is stateless here);
the module/custom results are marked with `custom_flag`. -/
def processSelected (env : PyEnv) (packages : Registry)
    (package_type : PackageEndpointType) (ignore_not_available : Bool)
    (pd : PackagesDict) (log : List String) (sp : Settings) :
    Except PyErr (PackagesDict × List String) :=
  match alLookup sp "endpoint" with
  | none => .error (.keyError "endpoint")
  | some (.blob _) => .error (.attributeError "lower")
  | some (.str s) =>
    let pid := pyLower s
    let pd := alUpdate pd pid { settings := sp }
    match alLookup packages package_type with
    | none => .error (.keyError (pyStrType package_type))
    | some m =>
      match alLookup m pid with
      | some e =>
        match e.installed with
        | none => .error (.keyError "installed")
        | some false =>
            .ok (pd, log ++ ["Cannot load " ++ pid ++ " (not installed)"])
        | some true =>
          match load_package_endpoint env packages package_type pid with
          | .error err => .error err
          | .ok c =>
              .ok (alUpdate pd pid { settings := sp, endpoint := some c }, log)
      | none =>
        if ignore_not_available then
          .error (.missingDependency ("Dependency " ++ pid ++ " not available."))
        else if env.isFile (pid ++ ".py") = false then
          let pd := alUpdate pd pid { settings := sp }
          match env.importModule pid with
          | .ok mh =>
              .ok (alUpdate pd pid
                    { settings := sp, endpoint := some mh, custom_flag := true }, log)
          | .error (.moduleNotFound _) =>
              if ignore_not_available then .ok (alErase pd pid, log)
              else
                .error (.missingDependency
                  ("Dependency " ++ pid ++ " not found. Please install it\n  pip install "
                    ++ pyStrType package_type ++ " " ++ pid))
          | .error err => .error err
        else
          let pd := alUpdate pd pid { settings := sp }
          match env.importModule pid with
          | .ok mh =>
              .ok (alUpdate pd pid
                    { settings := sp, endpoint := some mh, custom_flag := true }, log)
          | .error err => .error err

/-- The `__get_packages_dict` loop over the (deep-copied) selected
packages; in this pure value embedding the deep copy is the identity. -/
def getPackagesGo (env : PyEnv) (packages : Registry)
    (package_type : PackageEndpointType) (ignore_not_available : Bool) :
    List Settings → PackagesDict → List String →
    Except PyErr (PackagesDict × List String)
  | [], pd, log => .ok (pd, log)
  | sp :: rest, pd, log =>
    match processSelected env packages package_type ignore_not_available pd log sp with
    | .error e => .error e
    | .ok (pd1, log1) => getPackagesGo env packages package_type ignore_not_available rest pd1 log1

/-- `PackageManager.__get_packages_dict`. -/
def get_packages_dict (env : PyEnv) (packages : Registry)
    (package_type : PackageEndpointType) (selected_packages : List Settings)
    (ignore_not_available : Bool) : Except PyErr (PackagesDict × List String) :=
  getPackagesGo env packages package_type ignore_not_available selected_packages [] []

/-! ### `__drop_broken_packages` -/

/-- The `__drop_broken_packages` loop over a snapshot of
`packages_dict.items()`.  Entries with a `custom_flag` get their module
`endpoint` replaced by its `custom_class` attribute; on `AttributeError`
the dependency error is raised unless `ignore_not_available`, in which
case the entry is popped — and, exactly as in CPython, the next step of
the iterator of a dict whose size changed raises `RuntimeError` (the
`for` loop always advances once more, also after the last entry). -/
def dropBrokenGo (env : PyEnv) (custom_class : String)
    (ignore_not_available : Bool) :
    List (String × PkgInfo) → PackagesDict → List String →
    Except PyErr (PackagesDict × List String)
  | [], pd, log => .ok (pd, log)
  | (k, info) :: rest, pd, log =>
    if info.custom_flag = false then
      dropBrokenGo env custom_class ignore_not_available rest pd log
    else
      match info.endpoint with
      | none => .error (.keyError "endpoint")
      | some h =>
        match env.getattrM h custom_class with
        | .ok c =>
            dropBrokenGo env custom_class ignore_not_available rest
              (alUpdate pd k { info with endpoint := some c, custom_flag := false }) log
        | .error (.attributeError _) =>
            if ignore_not_available = false then
              .error (.missingDependency ("Dependency " ++ k ++ " not available"))
            else
              .error (.runtimeError "dictionary changed size during iteration")
        | .error err => .error err

/-- `PackageManager.__drop_broken_packages`. -/
def drop_broken_packages (env : PyEnv) (custom_class : String)
    (ignore_not_available : Bool) (pd : PackagesDict) (log : List String) :
    Except PyErr (PackagesDict × List String) :=
  dropBrokenGo env custom_class ignore_not_available pd pd log

/-! ### `load_packages` -/

/-- Python `==` between a `str` and a `PackageEndpointType` enum member
is always `False` (so the `del params["check_operation"]` line of
`load_packages` is dead code). -/
def pyStrEqEndpointType (_ : String) (_ : PackageEndpointType) : Bool := false

/-- Python `del params[k]` (a `KeyError` when the key is absent). -/
def pyDelParam (l : List (String × ParamVal)) (k : String) :
    Except PyErr (List (String × ParamVal)) :=
  match alLookup l k with
  | some _ => .ok (alErase l k)
  | none => .error (.keyError k)

/-- The final value stored for an identifier by `load_packages`: the
constructed instance, or the bare class when `instantiate_objects` is
off. -/
inductive EndVal where
  | inst (h : String)
  | cls (h : String)
  deriving DecidableEq, Repr

/-- The instantiation loop of `load_packages`: build the constructor
kwargs `{operation_name: operation, "settings": settings}`, raise when
no endpoint was resolved, instantiate and `verifyObject` against the
type's interface (or store the class when `instantiate_objects` is
off). -/
def instantiateGo (env : PyEnv) (operation_name import_name : String)
    (package_type : PackageEndpointType) (instantiate_objects : Bool) :
    List (String × PkgInfo) → Except PyErr (List (String × EndVal))
  | [] => .ok []
  | (pid, info) :: rest =>
    let params : List (String × ParamVal) :=
      [(operation_name, .op), ("settings", .settings info.settings)]
    match (if pyStrEqEndpointType "search_source" package_type then
             pyDelParam params "check_operation"
           else .ok params) with
    | .error e => .error e
    | .ok params =>
      match info.endpoint with
      | none => .error (.missingDependency (pid ++ " is not available"))
      | some h =>
        if instantiate_objects then
          match env.instantiate h params with
          | .error e => .error e
          | .ok inst =>
            match env.verify import_name inst with
            | .error e => .error e
            | .ok _ =>
              match instantiateGo env operation_name import_name package_type
                      instantiate_objects rest with
              | .error e => .error e
              | .ok res => .ok ((pid, .inst inst) :: res)
        else
          match instantiateGo env operation_name import_name package_type
                  instantiate_objects rest with
          | .error e => .error e
          | .ok res => .ok ((pid, .cls h) :: res)

/-- `PackageManager.load_packages` (the injected operation object is
opaque: it is what the `ParamVal.op` constructor argument denotes). -/
def load_packages (env : PyEnv) (packages : Registry)
    (package_type : PackageEndpointType) (selected_packages : List Settings)
    (ignore_not_available : Bool) (instantiate_objects : Bool) :
    Except PyErr (List (String × EndVal) × List String) :=
  if package_type ∈ packageTypeOverviewKeys then
    match get_packages_dict env packages package_type selected_packages
            ignore_not_available with
    | .error e => .error e
    | .ok (pd, log) =>
      match drop_broken_packages env (package_type_overview package_type).custom_class
              ignore_not_available pd log with
      | .error e => .error e
      | .ok (pd2, log2) =>
        match instantiateGo env (package_type_overview package_type).operation_name
                (package_type_overview package_type).import_name package_type
                instantiate_objects pd2 with
        | .error e => .error e
        | .ok res => .ok (res, log2)
  else
    .error (.missingDependency ("package_type " ++ pyStrType package_type ++ " not available"))

/-! ### `Prescreen.main` -/

/-- The environment of the prescreen operation: the loaded records (an
opaque handle), the configured prescreen package endpoints from the
project settings, the endpoints dict loaded at `__init__`, and the
effect of running one endpoint's `run_prescreen`. -/
structure PrescreenEnv where
  records : String
  settingsEndpoints : List Settings
  loaded : List (String × String)
  run : String → String → List String → Except PyErr String

/-- The endpoint loop of `Prescreen.main`. -/
def prescreenRunAll (env : PrescreenEnv) (split : List String) :
    List Settings → String → Except PyErr String
  | [], records => .ok records
  | sp :: rest, records =>
    match alLookup sp "endpoint" with
    | none => .error (.keyError "endpoint")
    | some (.blob _) => .error (.keyError "endpoint")
    | some (.str name) =>
      match alLookup env.loaded name with
      | none => .error (.keyError name)
      | some h =>
        match env.run h records split with
        | .error e => .error e
        | .ok records1 => prescreenRunAll env split rest records1

/-- `Prescreen.main`: for `split_str` other than `"NA"` the comma-split
list gets `remove("")` applied (Python `list.remove` raises `ValueError`
when the element is absent); only then are the records loaded and the
configured endpoints run in order. -/
def prescreenMain (env : PrescreenEnv) (split_str : String) :
    Except PyErr String :=
  match (if split_str = "NA" then .ok []
         else
           let parts := pySplit split_str ','
           if "" ∈ parts then .ok (parts.erase "")
           else (.error .valueError : Except PyErr (List String))) with
  | .error e => .error e
  | .ok split =>
    let records := env.records
    prescreenRunAll env split env.settingsEndpoints records

/-! ### Heap-instrumented embedding of `load_packages`

The pure embedding above works on immutable values and therefore cannot
express the frame property of `load_packages` (that the caller's
`selected_packages` list object and the settings dicts inside it are
never mutated — `__get_packages_dict` deep-copies them first).  The
embedding below makes Python object identity explicit: dicts and lists
live in a heap addressed by natural-number references, and every
mutation performed by the code is a write to a reference. -/

/-- A Python value stored in a heap container: a string, a bool, a
reference to another container, or an opaque handle (module, class or
instance object produced by the environment). -/
inductive HVal where
  | str (s : String)
  | boolv (b : Bool)
  | ref (r : Nat)
  | handle (h : String)
  deriving DecidableEq, Repr

/-- A heap container: a dict or a list. -/
inductive HObj where
  | dict (d : List (String × HVal))
  | list (l : List HVal)
  deriving DecidableEq, Repr

/-- The heap: an allocation counter and the store. -/
structure Heap where
  next : Nat
  mem : List (Nat × HObj)
  deriving DecidableEq, Repr

/-- Dereference. -/
def hget (h : Heap) (r : Nat) : Option HObj := alLookup h.mem r

/-- Allocate a fresh container. -/
def halloc (h : Heap) (o : HObj) : Heap × Nat :=
  (⟨h.next + 1, (h.next, o) :: h.mem⟩, h.next)

/-- Overwrite the container at a reference. -/
def hput (h : Heap) (r : Nat) (o : HObj) : Heap :=
  ⟨h.next, alModify h.mem r (fun _ => o)⟩

/-- Python `d[k] = v` through a reference (no-op on a non-dict). -/
def hdictSet (h : Heap) (r : Nat) (k : String) (v : HVal) : Heap :=
  match hget h r with
  | some (.dict d) => hput h r (.dict (alUpdate d k v))
  | _ => h

/-- Python `del d[k]` / `d.pop(k, None)` through a reference. -/
def hdictDel (h : Heap) (r : Nat) (k : String) : Heap :=
  match hget h r with
  | some (.dict d) => hput h r (.dict (alErase d k))
  | _ => h

/-- Tasks of `copy.deepcopy`: copy one value, a list of values, or the
entries of a dict. -/
inductive CopyTask where
  | val (v : HVal)
  | vals (l : List HVal)
  | entries (l : List (String × HVal))

/-- Results of `copy.deepcopy`, mirroring `CopyTask`. -/
inductive CopyRes where
  | val (v : HVal)
  | vals (l : List HVal)
  | entries (l : List (String × HVal))
  deriving DecidableEq, Repr

/-- `copy.deepcopy`: every reachable container is rebuilt in freshly
allocated cells; existing cells are only read.  Structural recursion on
a fuel bound (Python's cycle-handling memo is not needed for the
acyclic settings dicts, and exhausted fuel is reported as a failure). -/
def deepcopy : Nat → Heap → CopyTask → Option (Heap × CopyRes)
  | 0, _, _ => none
  | fuel + 1, h, .val (.ref r) =>
    match hget h r with
    | none => none
    | some (.dict d) =>
      match deepcopy fuel h (.entries d) with
      | some (h1, .entries d') =>
          let p := halloc h1 (.dict d')
          some (p.1, .val (.ref p.2))
      | _ => none
    | some (.list l) =>
      match deepcopy fuel h (.vals l) with
      | some (h1, .vals l') =>
          let p := halloc h1 (.list l')
          some (p.1, .val (.ref p.2))
      | _ => none
  | _ + 1, h, .val v => some (h, .val v)
  | _ + 1, h, .vals [] => some (h, .vals [])
  | fuel + 1, h, .vals (v :: l) =>
    match deepcopy fuel h (.val v) with
    | some (h1, .val v') =>
      match deepcopy fuel h1 (.vals l) with
      | some (h2, .vals l') => some (h2, .vals (v' :: l'))
      | _ => none
    | _ => none
  | _ + 1, h, .entries [] => some (h, .entries [])
  | fuel + 1, h, .entries ((k, v) :: l) =>
    match deepcopy fuel h (.val v) with
    | some (h1, .val v') =>
      match deepcopy fuel h1 (.entries l) with
      | some (h2, .entries l') => some (h2, .entries ((k, v') :: l'))
      | _ => none
    | _ => none

/-- Heap version of the `__get_packages_dict` loop body: process one
element of the deep-copied `selected_packages` list.  The writes target
only the freshly built `packages_dict` (at `pdRef`) and its freshly
allocated inner dicts. -/
def processSelectedH (env : PyEnv) (packages : Registry)
    (package_type : PackageEndpointType) (ignore_not_available : Bool)
    (pdRef : Nat) (h : Heap) (spv : HVal) : Heap × Except PyErr Unit :=
  match spv with
  | .ref spr =>
    match hget h spr with
    | some (.dict sd) =>
      match alLookup sd "endpoint" with
      | none => (h, .error (.keyError "endpoint"))
      | some (.str s) =>
        let pid := pyLower s
        let p := halloc h (.dict [])
        let innerRef := p.2
        let h1 := hdictSet p.1 pdRef pid (.ref innerRef)
        let h2 := hdictSet h1 innerRef "settings" (.ref spr)
        match alLookup packages package_type with
        | none => (h2, .error (.keyError (pyStrType package_type)))
        | some m =>
          match alLookup m pid with
          | some e =>
            match e.installed with
            | none => (h2, .error (.keyError "installed"))
            | some false => (h2, .ok ())
            | some true =>
              match load_package_endpoint env packages package_type pid with
              | .error err => (h2, .error err)
              | .ok c => (hdictSet h2 innerRef "endpoint" (.handle c), .ok ())
          | none =>
            if ignore_not_available then
              (h2, .error (.missingDependency ("Dependency " ++ pid ++ " not available.")))
            else if env.isFile (pid ++ ".py") = false then
              let h3 := hdictSet h2 innerRef "settings" (.ref spr)
              match env.importModule pid with
              | .ok mh =>
                  let h4 := hdictSet h3 innerRef "endpoint" (.handle mh)
                  (hdictSet h4 innerRef "custom_flag" (.boolv true), .ok ())
              | .error (.moduleNotFound _) =>
                  if ignore_not_available then (hdictDel h3 pdRef pid, .ok ())
                  else
                    (h3, .error (.missingDependency
                      ("Dependency " ++ pid ++ " not found. Please install it\n  pip install "
                        ++ pyStrType package_type ++ " " ++ pid)))
              | .error err => (h3, .error err)
            else
              let h3 := hdictSet h2 innerRef "settings" (.ref spr)
              match env.importModule pid with
              | .ok mh =>
                  let h4 := hdictSet h3 innerRef "endpoint" (.handle mh)
                  (hdictSet h4 innerRef "custom_flag" (.boolv true), .ok ())
              | .error err => (h3, .error err)
      | some _ => (h, .error (.attributeError "lower"))
    | _ => (h, .error .typeError)
  | _ => (h, .error .typeError)

/-- Heap version of the `__get_packages_dict` loop. -/
def getPackagesGoH (env : PyEnv) (packages : Registry)
    (package_type : PackageEndpointType) (ignore_not_available : Bool)
    (pdRef : Nat) : Heap → List HVal → Heap × Except PyErr Unit
  | h, [] => (h, .ok ())
  | h, v :: rest =>
    match processSelectedH env packages package_type ignore_not_available pdRef h v with
    | (h1, .ok _) => getPackagesGoH env packages package_type ignore_not_available pdRef h1 rest
    | (h1, .error e) => (h1, .error e)

/-- Heap version of `__get_packages_dict`: deep-copy the caller's
`selected_packages` list, allocate a fresh `packages_dict` and fill it. -/
def getPackagesDictH (fuel : Nat) (env : PyEnv) (packages : Registry)
    (package_type : PackageEndpointType) (ignore_not_available : Bool)
    (h : Heap) (selRef : Nat) : Heap × Except PyErr Nat :=
  match hget h selRef with
  | some (.list l) =>
    match deepcopy fuel h (.vals l) with
    | none => (h, .error (.runtimeError "deepcopy fuel exhausted"))
    | some (h1, .vals l') =>
      let p := halloc h1 (.dict [])
      match getPackagesGoH env packages package_type ignore_not_available p.2 p.1 l' with
      | (h3, .ok _) => (h3, .ok p.2)
      | (h3, .error e) => (h3, .error e)
    | some (h1, _) => (h1, .error (.runtimeError "deepcopy"))
  | _ => (h, .error .typeError)

/-- Heap version of the `__drop_broken_packages` loop (over a snapshot
of `packages_dict.items()`). -/
def dropBrokenGoH (env : PyEnv) (custom_class : String)
    (ignore_not_available : Bool) (pdRef : Nat) :
    Heap → List (String × HVal) → Heap × Except PyErr Unit
  | h, [] => (h, .ok ())
  | h, (k, v) :: rest =>
    match v with
    | .ref ir =>
      match hget h ir with
      | some (.dict idd) =>
        match alLookup idd "custom_flag" with
        | none => dropBrokenGoH env custom_class ignore_not_available pdRef h rest
        | some _ =>
          match alLookup idd "endpoint" with
          | some (.handle eh) =>
            match env.getattrM eh custom_class with
            | .ok c =>
                let h1 := hdictSet h ir "endpoint" (.handle c)
                let h2 := hdictDel h1 ir "custom_flag"
                dropBrokenGoH env custom_class ignore_not_available pdRef h2 rest
            | .error (.attributeError _) =>
                if ignore_not_available = false then
                  (h, .error (.missingDependency ("Dependency " ++ k ++ " not available")))
                else
                  (hdictDel h pdRef k,
                   .error (.runtimeError "dictionary changed size during iteration"))
            | .error err => (h, .error err)
          | _ => (h, .error (.keyError "endpoint"))
      | _ => (h, .error .typeError)
    | _ => (h, .error .typeError)

/-- Heap version of `__drop_broken_packages`. -/
def dropBrokenH (env : PyEnv) (custom_class : String)
    (ignore_not_available : Bool) (pdRef : Nat) (h : Heap) :
    Heap × Except PyErr Unit :=
  match hget h pdRef with
  | some (.dict d) => dropBrokenGoH env custom_class ignore_not_available pdRef h d
  | _ => (h, .error .typeError)

/-- The `"settings"` constructor argument in the heap embedding: the
reference to the (copied) settings dict. -/
def settingsParam : HVal → ParamVal
  | .ref r => .settingsRef r
  | _ => .op

/-- Heap version of the instantiation loop of `load_packages`: the only
writes replace values of the `packages_dict` itself. -/
def instantiateGoH (env : PyEnv) (operation_name import_name : String)
    (package_type : PackageEndpointType) (instantiate_objects : Bool)
    (pdRef : Nat) : Heap → List (String × HVal) → Heap × Except PyErr Unit
  | h, [] => (h, .ok ())
  | h, (pid, v) :: rest =>
    match v with
    | .ref ir =>
      match hget h ir with
      | some (.dict idd) =>
        match alLookup idd "settings" with
        | none => (h, .error (.keyError "settings"))
        | some sv =>
          let params : List (String × ParamVal) :=
            [(operation_name, .op), ("settings", settingsParam sv)]
          match alLookup idd "endpoint" with
          | none => (h, .error (.missingDependency (pid ++ " is not available")))
          | some (.handle eh) =>
            if instantiate_objects then
              match env.instantiate eh params with
              | .error e => (h, .error e)
              | .ok inst =>
                match env.verify import_name inst with
                | .error e => (h, .error e)
                | .ok _ =>
                    instantiateGoH env operation_name import_name package_type
                      instantiate_objects pdRef
                      (hdictSet h pdRef pid (.handle inst)) rest
            else
              instantiateGoH env operation_name import_name package_type
                instantiate_objects pdRef
                (hdictSet h pdRef pid (.handle eh)) rest
          | some _ => (h, .error .typeError)
      | _ => (h, .error .typeError)
    | _ => (h, .error .typeError)

/-- Heap version of `load_packages`: the caller passes a reference to
its `selected_packages` list; the result (on success) is the reference
to the freshly built `packages_dict`.  The heap after the call is
returned in every case, also when an exception is raised. -/
def loadPackagesH (fuel : Nat) (env : PyEnv) (packages : Registry)
    (package_type : PackageEndpointType) (ignore_not_available : Bool)
    (instantiate_objects : Bool) (h : Heap) (selRef : Nat) :
    Heap × Except PyErr Nat :=
  if package_type ∈ packageTypeOverviewKeys then
    match getPackagesDictH fuel env packages package_type ignore_not_available h selRef with
    | (h1, .error e) => (h1, .error e)
    | (h1, .ok pdRef) =>
      match dropBrokenH env (package_type_overview package_type).custom_class
              ignore_not_available pdRef h1 with
      | (h2, .error e) => (h2, .error e)
      | (h2, .ok _) =>
        match hget h2 pdRef with
        | some (.dict d) =>
          match instantiateGoH env (package_type_overview package_type).operation_name
                  (package_type_overview package_type).import_name package_type
                  instantiate_objects pdRef h2 d with
          | (h3, .ok _) => (h3, .ok pdRef)
          | (h3, .error e) => (h3, .error e)
        | _ => (h2, .error .typeError)
  else
    (h, .error (.missingDependency ("package_type " ++ pyStrType package_type ++ " not available")))

/-! ### Predicates for the heap frame property -/

/-- Heap evolution that preserves every cell below `n0`: the allocation
counter grows monotonically and all pre-existing objects are unchanged. -/
def HeapPreserved (n0 : Nat) (h h' : Heap) : Prop :=
  h.next ≤ h'.next ∧ ∀ r, r < n0 → hget h' r = hget h r

/-- A heap value whose reference (if it is one) is at least `n`. -/
def hvalRefGE (n : Nat) : HVal → Prop
  | .ref r => n ≤ r
  | _ => True

/-- All references produced by a `deepcopy` result are at least `n`
(they are freshly allocated). -/
def copyResRefGE (n : Nat) : CopyRes → Prop
  | .val v => hvalRefGE n v
  | .vals l => ∀ v ∈ l, hvalRefGE n v
  | .entries l => ∀ p ∈ l, hvalRefGE n p.2

/-- All values of the `packages_dict` are references at least `n0`
(they point to dicts built during the call). -/
def PdGE (n0 : Nat) (h : Heap) (pdRef : Nat) : Prop :=
  ∀ d, hget h pdRef = some (.dict d) → ∀ p ∈ d, hvalRefGE n0 p.2

/-- The invariant carried through the heap embedding of
`load_packages`, relative to the heap `h` at entry: all pre-existing
cells preserved, the `packages_dict` reference allocated and pointing
only at freshly built dicts. -/
def HeapInv (n0 pdRef : Nat) (h hX : Heap) : Prop :=
  HeapPreserved n0 h hX ∧ pdRef < hX.next ∧ PdGE n0 hX pdRef

/-! ### Concrete environments and registries for witnesses and
counterexamples -/

/-- A small concrete environment: one importable module `"mod"`
providing the class `"C"`; everything instantiable and verifiable. -/
def envSimple : PyEnv where
  importModule := fun mn => if mn = "mod" then .ok "mod" else .error (.moduleNotFound mn)
  getattrM := fun mh a =>
    if mh = "mod" then (if a = "C" then .ok "mod.C" else .error (.attributeError a))
    else .error (.attributeError a)
  isFile := fun _ => false
  doc := fun _ => some "docstring"
  instantiate := fun c _ => .ok (c ++ "@inst")
  verify := fun _ _ => .ok ()
  jsonParse := fun _ => .error (.runtimeError "no json")

/-- A registry with one installed prescreen package. -/
def regSimple : Registry :=
  [(.prescreen, [("x", { endpoint := "mod.C", installed := some true })])]

/-- Environment whose only importable module is `"x"` (exercising the
module branch of `__get_packages_dict`). -/
def envC2 : PyEnv := { envSimple with
  importModule := fun mn => if mn = "x" then .ok "xmodule" else .error (.moduleNotFound mn) }

/-- Environment where every import fails with `ModuleNotFoundError`. -/
def envBroken : PyEnv := { envSimple with
  importModule := fun mn => .error (.moduleNotFound mn) }

/-- A registry with one prescreen package flagged not installed. -/
def regNotInstalled : Registry :=
  [(.prescreen, [("x", { endpoint := "m.C", installed := some false })])]

/-- Environment serving a one-entry package index file. -/
def envIdx : PyEnv := { envSimple with
  jsonParse := fun s =>
    if s = "INDEX" then .ok [("prescreen", [("x", [("endpoint", "mod.C")])])]
    else .error (.runtimeError "bad json") }

/-- Environment serving an index whose endpoint path contains a space
(the asserts do not reject it). -/
def envIdxSpace : PyEnv := { envSimple with
  jsonParse := fun s =>
    if s = "SPACEIDX" then .ok [("prescreen", [("x", [("endpoint", "mod. C")])])]
    else .error (.runtimeError "bad json") }

/-- A concrete prescreen environment. -/
def envPrescreen : PrescreenEnv where
  records := "records"
  settingsEndpoints := []
  loaded := []
  run := fun _ r _ => .ok r

/-- Two-level registry lookup: the metadata entry of one identifier
under one package type. -/
def alLookup2 (reg : Registry) (t : PackageEndpointType) (id : String) :
    Option PackageEntry :=
  match alLookup reg t with
  | none => none
  | some m => alLookup m id

/-- What the inner loop of `__flag_installed_packages` achieves for one
package type `t` over the identifier list `ids`, going from registry
`reg` to `reg'`: loading is unchanged (it reads only `endpoint` fields),
other types and unprocessed identifiers are untouched, every processed
identifier has its `installed` flag set to the success of
`load_package_endpoint` (with only `ModuleNotFoundError` or
`AttributeError` behind a `False`), and all key sets are preserved. -/
def FlagSpec (env : PyEnv) (t : PackageEndpointType) (ids : List String)
    (reg reg' : Registry) : Prop :=
  (∀ t' id', load_package_endpoint env reg' t' id' =
      load_package_endpoint env reg t' id') ∧
  (∀ t', t' ≠ t → alLookup reg' t' = alLookup reg t') ∧
  (∀ id, id ∉ ids → alLookup2 reg' t id = alLookup2 reg t id) ∧
  (∀ id ∈ ids, alLookup2 reg' t id =
      Option.map (fun e => { e with installed := some (loadOk env reg t id) })
        (alLookup2 reg t id) ∧
      (loadOk env reg t id = false →
        isMnfAttr (load_package_endpoint env reg t id) = true)) ∧
  (∀ t', Option.map (List.map Prod.fst) (alLookup reg' t') =
      Option.map (List.map Prod.fst) (alLookup reg t')) ∧
  reg'.map Prod.fst = reg.map Prod.fst

/-- What the outer loop of `__flag_installed_packages` achieves over the
package-type list `ts`. -/
def FlagTypesSpec (env : PyEnv) (ts : List PackageEndpointType)
    (reg reg' : Registry) : Prop :=
  (∀ t' id', load_package_endpoint env reg' t' id' =
      load_package_endpoint env reg t' id') ∧
  (∀ t, t ∉ ts → alLookup reg' t = alLookup reg t) ∧
  (∀ t ∈ ts, ∀ m, alLookup reg t = some m →
     ∀ id ∈ m.map Prod.fst,
       alLookup2 reg' t id =
         Option.map (fun e => { e with installed := some (loadOk env reg t id) })
           (alLookup2 reg t id) ∧
       (loadOk env reg t id = false →
         isMnfAttr (load_package_endpoint env reg t id) = true)) ∧
  (∀ t', Option.map (List.map Prod.fst) (alLookup reg' t') =
      Option.map (List.map Prod.fst) (alLookup reg t')) ∧
  reg'.map Prod.fst = reg.map Prod.fst

/-- What the `discover_packages` loop achieves over the iterated
`items`, going from registry `reg` to `reg'`: loading unchanged, all
key sets preserved, unprocessed identifiers untouched, entries skipped
by the installed-only guard untouched, and other types untouched. -/
def DiscoverSpec (env : PyEnv) (t : PackageEndpointType) (io_ : Bool)
    (items : List (String × PackageEntry)) (reg reg' : Registry) : Prop :=
  (∀ t' id', load_package_endpoint env reg' t' id' =
      load_package_endpoint env reg t' id') ∧
  (∀ t', Option.map (List.map Prod.fst) (alLookup reg' t') =
      Option.map (List.map Prod.fst) (alLookup reg t')) ∧
  (∀ id, id ∉ items.map Prod.fst → alLookup2 reg' t id = alLookup2 reg t id) ∧
  (∀ p ∈ items, io_ = true → p.2.installed = some false →
      alLookup2 reg' t p.1 = alLookup2 reg t p.1) ∧
  (∀ t', t' ≠ t → alLookup reg' t' = alLookup reg t')

/-! ### Lemmas about the association-list dictionary operations -/

theorem alLookup_alModify [DecidableEq α] (l : List (α × β)) (k k' : α) (f : β → β) :
    alLookup (alModify l k f) k' =
      if k' = k then Option.map f (alLookup l k) else alLookup l k' := by
  induction l with
  | nil => simp [alModify, alLookup]
  | cons hd tl ih =>
    obtain ⟨a, b⟩ := hd
    by_cases hka : k = a
    · subst hka
      by_cases hk' : k' = k
      · subst hk'; simp [alModify, alLookup]
      · simp [alModify, alLookup, hk']
    · by_cases hk' : k' = k
      · subst hk'
        simp [alModify, alLookup, hka, Ne.symm hka, ih]
      · by_cases h'a : k' = a
        · subst h'a; simp [alModify, alLookup, hka, hk']
        · simp [alModify, alLookup, hka, hk', h'a, ih]

theorem alModify_keys [DecidableEq α] (l : List (α × β)) (k : α) (f : β → β) :
    (alModify l k f).map Prod.fst = l.map Prod.fst := by
  induction l with
  | nil => rfl
  | cons hd tl ih =>
    obtain ⟨a, b⟩ := hd
    by_cases hka : k = a
    · subst hka; simp [alModify]
    · simp [alModify, hka, ih]

theorem alLookup_mem_keys [DecidableEq α] {l : List (α × β)} {k : α} {v : β}
    (h : alLookup l k = some v) : k ∈ l.map Prod.fst := by
  induction l with
  | nil => simp [alLookup] at h
  | cons hd tl ih =>
    obtain ⟨a, b⟩ := hd
    by_cases hka : k = a
    · subst hka; simp
    · simp [alLookup, hka] at h
      simp [ih h]

theorem alLookup_self_of_nodup [DecidableEq α] {l : List (α × β)}
    (hnd : (l.map Prod.fst).Nodup) : ∀ p ∈ l, alLookup l p.1 = some p.2 := by
  induction l with
  | nil => simp
  | cons hd tl ih =>
    obtain ⟨a, b⟩ := hd
    simp only [List.map_cons, List.nodup_cons] at hnd
    intro p hp
    rcases List.mem_cons.mp hp with hp | hp
    · subst hp; simp [alLookup]
    · have hne : p.1 ≠ a := by
        intro he
        exact hnd.1 (he ▸ (List.mem_map.mpr ⟨p, hp, rfl⟩))
      simp [alLookup, hne]
      exact ih hnd.2 p hp

theorem mem_alUpdate [DecidableEq α] {l : List (α × β)} {k : α} {v : β} {p : α × β}
    (h : p ∈ alUpdate l k v) : p = (k, v) ∨ p ∈ l := by
  induction l with
  | nil => simp [alUpdate] at h; simp [h]
  | cons hd tl ih =>
    obtain ⟨a, b⟩ := hd
    by_cases hka : k = a
    · subst hka; simp [alUpdate] at h
      rcases h with h | h
      · left; simp [h]
      · right; simp [h]
    · simp [alUpdate, hka] at h
      rcases h with h | h
      · right; simp [h]
      · rcases ih h with h' | h'
        · left; exact h'
        · right; simp [h']

theorem mem_alErase [DecidableEq α] {l : List (α × β)} {k : α} {p : α × β}
    (h : p ∈ alErase l k) : p ∈ l := by
  induction l with
  | nil => simp [alErase] at h
  | cons hd tl ih =>
    obtain ⟨a, b⟩ := hd
    by_cases hka : k = a
    · subst hka; simp [alErase] at h; simp [h]
    · simp [alErase, hka] at h
      rcases h with h | h
      · simp [h]
      · simp [ih h]

/-! ### Invariance of `load_package_endpoint` under flag updates

`load_package_endpoint` reads only the `endpoint` field of a registry
entry, so any in-place mutation of other fields (the `installed` flag
set by `__flag_installed_packages`, the `description` attached by
`discover_packages`) leaves its result unchanged. -/

theorem load_modifyEntryAt (env : PyEnv) (reg : Registry)
    (t0 : PackageEndpointType) (id0 : String) (f : PackageEntry → PackageEntry)
    (hf : ∀ e, (f e).endpoint = e.endpoint)
    (t : PackageEndpointType) (id : String) :
    load_package_endpoint env (modifyEntryAt reg t0 id0 f) t id =
      load_package_endpoint env reg t id := by
  unfold load_package_endpoint modifyEntryAt
  simp only [alLookup_alModify]
  by_cases ht : t = t0
  · subst ht
    rw [if_pos rfl]
    cases hm : alLookup reg t with
    | none => rfl
    | some m =>
      simp only [Option.map_some']
      simp only [alLookup_alModify]
      by_cases hid : pyLower id = id0
      · subst hid
        rw [if_pos rfl]
        cases he : alLookup m (pyLower id) with
        | none => rfl
        | some e => simp [hf e]
      · rw [if_neg hid]
  · rw [if_neg ht]

theorem loadOk_modifyEntryAt (env : PyEnv) (reg : Registry)
    (t0 : PackageEndpointType) (id0 : String) (f : PackageEntry → PackageEntry)
    (hf : ∀ e, (f e).endpoint = e.endpoint)
    (t : PackageEndpointType) (id : String) :
    loadOk env (modifyEntryAt reg t0 id0 f) t id = loadOk env reg t id := by
  unfold loadOk
  rw [load_modifyEntryAt env reg t0 id0 f hf t id]

/-! ### C3: order of the pipeline stage types -/

/-- C3 counterexample: the claim puts prescreen before dedupe, but in
the `PackageEndpointType` enum (the registry's stage types) dedupe
precedes prescreen, so prescreen's position is not below dedupe's. -/
theorem C3_counterexample_prescreen_not_before_dedupe :
    ¬ stageIndex PackageEndpointType.prescreen < stageIndex PackageEndpointType.dedupe := by
  decide

/-- C3 (amended): the registry's stage types enumerate the pipeline
stages in the order preparation, then dedupe, then prescreen, then PDF
retrieval, then PDF preparation, then screen, then synthesis/data
export. -/
theorem C3_stage_types_pipeline_order :
    stageIndex PackageEndpointType.prep < stageIndex PackageEndpointType.dedupe ∧
    stageIndex PackageEndpointType.dedupe < stageIndex PackageEndpointType.prescreen ∧
    stageIndex PackageEndpointType.prescreen < stageIndex PackageEndpointType.pdf_get ∧
    stageIndex PackageEndpointType.pdf_get < stageIndex PackageEndpointType.pdf_prep ∧
    stageIndex PackageEndpointType.pdf_prep < stageIndex PackageEndpointType.screen ∧
    stageIndex PackageEndpointType.screen < stageIndex PackageEndpointType.data := by
  decide

/-! ### C9: `Prescreen.main` on a split string without empty parts -/

/-- C9: for every `split_str` other than `"NA"` whose comma-separated
parts contain no empty string, `Prescreen.main` raises `ValueError`
(from `split.remove("")`), for every environment — so no records are
consulted and no prescreen endpoint is run. -/
theorem C9_prescreen_main_value_error (env : PrescreenEnv) (split_str : String)
    (h1 : split_str ≠ "NA") (h2 : "" ∉ pySplit split_str ',') :
    prescreenMain env split_str = .error .valueError := by
  unfold prescreenMain
  rw [if_neg h1]
  simp [h2]

/-- C9 witness at `split_str = "a,b"`. -/
theorem C9_witness :
    prescreenMain envPrescreen "a,b" = .error .valueError :=
  C9_prescreen_main_value_error envPrescreen "a,b" (by decide) (by decide)

/-! ### C5: the `load_package_endpoint` contract -/

/-- C5: `load_package_endpoint` lowercases the identifier; it raises
`MissingDependencyError` when the lowercased identifier is not
registered under the package type, and otherwise returns the attribute
named by the last component of the entry's dotted `endpoint` path on
the module imported from the part before it. -/
theorem C5_load_package_endpoint_contract (env : PyEnv) (reg : Registry)
    (t : PackageEndpointType) (id : String) (m : List (String × PackageEntry))
    (hm : alLookup reg t = some m) :
    (alLookup m (pyLower id) = none →
      load_package_endpoint env reg t id =
        .error (.missingDependency
          (pyLower id ++ " (" ++ pyStrType t ++ ") not available"))) ∧
    (∀ e, alLookup m (pyLower id) = some e →
      load_package_endpoint env reg t id =
        match env.importModule (rsplitModule e.endpoint) with
        | .error err => .error err
        | .ok md => env.getattrM md (rsplitAttr e.endpoint)) := by
  constructor
  · intro hnone
    unfold load_package_endpoint
    simp only [hm, hnone]
  · intro e he
    unfold load_package_endpoint
    simp only [hm, he]

/-- C5 witness: an identifier registered (after lowercasing) resolves
through import plus attribute lookup in a concrete environment. -/
theorem C5_witness :
    load_package_endpoint envSimple regSimple PackageEndpointType.prescreen "X" =
      match envSimple.importModule (rsplitModule "mod.C") with
      | .error err => .error err
      | .ok md => envSimple.getattrM md (rsplitAttr "mod.C") :=
  (C5_load_package_endpoint_contract envSimple regSimple .prescreen "X"
      [("x", { endpoint := "mod.C", installed := some true })] (by decide)).2
    { endpoint := "mod.C", installed := some true } (by decide)

/-! ### C6: index loading and its assertions -/

theorem checkIndexEntries_ok {l : List (String × List (String × String))}
    (h : checkIndexEntries l = .ok ()) :
    ∀ p ∈ l, pyContainsChar p.1 ' ' = false ∧ alLookup p.2 " " = none ∧
      pyIsLower p.1 = true := by
  induction l with
  | nil => simp
  | cons hd tl ih =>
    obtain ⟨id, md⟩ := hd
    rw [checkIndexEntries] at h
    by_cases h1 : pyContainsChar id ' ' = true
    · rw [if_pos h1] at h; exact absurd h (by simp)
    · rw [if_neg h1] at h
      by_cases h2 : (alLookup md " ").isSome = true
      · rw [if_pos h2] at h; exact absurd h (by simp)
      · rw [if_neg h2] at h
        by_cases h3 : pyIsLower id = true
        · rw [if_neg (by simp [h3])] at h
          intro p hp
          rcases List.mem_cons.mp hp with hp | hp
          · subst hp
            refine ⟨by simpa using h1, ?_, h3⟩
            simpa using Option.not_isSome_iff_eq_none.mp h2
          · exact ih h p hp
        · rw [if_pos (by simp [Bool.not_eq_true] at h3 ⊢; exact h3)] at h
          exact absurd h (by simp)

theorem buildRegistry_entries
    {pd : List (String × List (String × List (String × String)))}
    {reg : Registry} (hok : buildRegistry pd = .ok reg) :
    ∀ p ∈ pd, ∀ q ∈ p.2,
      pyContainsChar q.1 ' ' = false ∧ alLookup q.2 " " = none ∧
      pyIsLower q.1 = true := by
  induction pd generalizing reg with
  | nil => simp
  | cons hd tl ih =>
    obtain ⟨key, value⟩ := hd
    rw [buildRegistry] at hok
    cases hety : endpointTypeOfString key with
    | none =>
      simp only [hety] at hok
      exact Except.noConfusion hok
    | some t0 =>
      simp only [hety] at hok
      cases hchk : checkIndexEntries value with
      | error e2 =>
        simp only [hchk] at hok
        exact Except.noConfusion hok
      | ok u =>
        simp only [hchk] at hok
        cases hrest : buildRegistry tl with
        | error e2 =>
          simp only [hrest] at hok
          exact Except.noConfusion hok
        | ok reg' =>
          intro p hp q hq
          rcases List.mem_cons.mp hp with hp | hp
          · subst hp
            exact checkIndexEntries_ok hchk q hq
          · exact ih hrest p hp q hq

/-- C6 counterexample: an index whose endpoint path contains a space
loads without any `AssertionError` — `assert " " not in package_path`
tests the *keys* of the metadata dict (`package_path` is that dict),
never the endpoint path string — so the loaded registry violates the
claimed no-space-in-endpoint-path assertion. -/
theorem C6_counterexample :
    load_package_endpoints_index envIdxSpace (some "SPACEIDX") =
      .ok [(.prescreen, [("x", { endpoint := "mod. C" })])] ∧
    pyContainsChar "mod. C" ' ' = true := by
  decide

/-- C6 (amended): `PackageManager` construction raises `CoLRevException`
when the packaged index file yields no content; when the index loads,
the resulting registry maps each `PackageEndpointType` to a mapping
from identifier to metadata, and for every identifier of the parsed
index the assertions hold: the identifier contains no space, the
identifier is entirely lowercase, and the identifier's metadata dict
has no `" "` key (`package_path` in `assert " " not in package_path`
is the metadata dict, so that assert is a dict-key membership test —
the endpoint path string is never checked for spaces). -/
theorem C6_index_content_and_assertions (env : PyEnv) (filedata : Option String) :
    ((filedata = none ∨ filedata = some "") →
      packageManagerInit env filedata =
        .error (.colrevException
          "Package index not available (colrev/template/package_endpoints.json)")) ∧
    (∀ s pd reg, filedata = some s → env.jsonParse s = .ok pd →
      load_package_endpoints_index env filedata = .ok reg →
      ∀ p ∈ pd, ∀ q ∈ p.2,
        pyContainsChar q.1 ' ' = false ∧ alLookup q.2 " " = none ∧
        pyIsLower q.1 = true) := by
  constructor
  · rintro (hfd | hfd) <;> subst hfd <;> rfl
  · intro s pd reg hfd hj hok
    subst hfd
    rw [load_package_endpoints_index] at hok
    by_cases hs : s = ""
    · rw [if_pos hs] at hok
      exact absurd hok (by simp)
    · rw [if_neg hs] at hok
      simp only [hj] at hok
      exact buildRegistry_entries hok

/-- C6 witness: a concrete one-entry index loads and its parsed entry
satisfies the asserted invariants. -/
theorem C6_witness :
    pyContainsChar "x" ' ' = false ∧
      alLookup [("endpoint", "mod.C")] " " = none ∧ pyIsLower "x" = true :=
  (C6_index_content_and_assertions envIdx (some "INDEX")).2
    "INDEX" [("prescreen", [("x", [("endpoint", "mod.C")])])]
    [(.prescreen, [("x", { endpoint := "mod.C" })])]
    rfl rfl rfl
    ("prescreen", [("x", [("endpoint", "mod.C")])]) (List.mem_cons_self _ _)
    ("x", [("endpoint", "mod.C")]) (List.mem_cons_self _ _)

/-! ### C1: instantiation with exactly two constructor arguments plus
interface verification -/

theorem instantiateGo_ok_spec (env : PyEnv) (opn ifn : String)
    (t : PackageEndpointType) (pdl : List (String × PkgInfo))
    (res : List (String × EndVal))
    (hok : instantiateGo env opn ifn t true pdl = .ok res) :
    ∀ p ∈ res, ∃ ch s inst,
      p.2 = .inst inst ∧
      env.instantiate ch [(opn, .op), ("settings", .settings s)] = .ok inst ∧
      env.verify ifn inst = .ok () := by
  induction pdl generalizing res with
  | nil =>
    simp only [instantiateGo, Except.ok.injEq] at hok
    subst hok; simp
  | cons hd tl ih =>
    obtain ⟨pid, info⟩ := hd
    rw [instantiateGo] at hok
    simp only [pyStrEqEndpointType, Bool.false_eq_true, if_false] at hok
    cases hep : info.endpoint with
    | none =>
      simp only [hep] at hok
      exact Except.noConfusion hok
    | some ch =>
      simp only [hep, if_true] at hok
      cases hinst : env.instantiate ch
          [(opn, .op), ("settings", .settings info.settings)] with
      | error e =>
        simp only [hinst] at hok
        exact Except.noConfusion hok
      | ok inst =>
        simp only [hinst] at hok
        cases hver : env.verify ifn inst with
        | error e =>
          simp only [hver] at hok
          exact Except.noConfusion hok
        | ok u =>
          simp only [hver] at hok
          cases hrec : instantiateGo env opn ifn t true tl with
          | error e =>
            simp only [hrec] at hok
            exact Except.noConfusion hok
          | ok res' =>
            simp only [hrec, Except.ok.injEq] at hok
            subst hok
            intro p hp
            rcases List.mem_cons.mp hp with hp | hp
            · subst hp
              exact ⟨ch, info.settings, inst, rfl, hinst, hver⟩
            · exact ih res' hrec p hp

/-- C1: whenever `load_packages` with `instantiate_objects` returns,
every returned value is an instance obtained by calling the endpoint
class with exactly the two constructor arguments
`{operation_name: operation, "settings": settings}` and then verified
(`verifyObject`) against the zope interface declared for the package
type in `package_type_overview`. -/
theorem C1_load_packages_instantiates_and_verifies (env : PyEnv)
    (packages : Registry) (package_type : PackageEndpointType)
    (selected : List Settings) (ignore : Bool)
    (res : List (String × EndVal)) (log : List String)
    (hok : load_packages env packages package_type selected ignore true =
      .ok (res, log)) :
    ∀ p ∈ res, ∃ ch s inst,
      p.2 = .inst inst ∧
      env.instantiate ch
        [((package_type_overview package_type).operation_name, .op),
         ("settings", .settings s)] = .ok inst ∧
      env.verify (package_type_overview package_type).import_name inst = .ok () := by
  rw [load_packages] at hok
  by_cases hmem : package_type ∈ packageTypeOverviewKeys
  · rw [if_pos hmem] at hok
    cases hg : get_packages_dict env packages package_type selected ignore with
    | error e =>
      simp only [hg] at hok
      exact Except.noConfusion hok
    | ok pr =>
      obtain ⟨pd, lg⟩ := pr
      simp only [hg] at hok
      cases hd : drop_broken_packages env
          (package_type_overview package_type).custom_class ignore pd lg with
      | error e =>
        simp only [hd] at hok
        exact Except.noConfusion hok
      | ok pr2 =>
        obtain ⟨pd2, lg2⟩ := pr2
        simp only [hd] at hok
        cases hi : instantiateGo env
            (package_type_overview package_type).operation_name
            (package_type_overview package_type).import_name package_type
            true pd2 with
        | error e =>
          simp only [hi] at hok
          exact Except.noConfusion hok
        | ok res' =>
          simp only [hi, Except.ok.injEq, Prod.mk.injEq] at hok
          obtain ⟨h1, h2⟩ := hok
          subst h1
          exact instantiateGo_ok_spec env _ _ package_type pd2 res' hi
  · rw [if_neg hmem] at hok
    exact Except.noConfusion hok

/-- C1 witness: a concrete built-in prescreen package is loaded,
instantiated with the two constructor arguments, and verified. -/
theorem C1_witness :
    ∃ ch s inst,
      (("x", EndVal.inst "mod.C@inst") : String × EndVal).2 = .inst inst ∧
      envSimple.instantiate ch
        [((package_type_overview PackageEndpointType.prescreen).operation_name, .op),
         ("settings", .settings s)] = .ok inst ∧
      envSimple.verify
        (package_type_overview PackageEndpointType.prescreen).import_name inst =
        .ok () :=
  C1_load_packages_instantiates_and_verifies envSimple regSimple .prescreen
    [[("endpoint", SVal.str "x")]] false [("x", .inst "mod.C@inst")] [] (by decide)
    ("x", .inst "mod.C@inst") (by decide)

/-! ### C2: built-in vs. module vs. custom loading precedence -/

/-- C2 counterexample: an identifier absent from the registry, with no
local `x.py` file and an importable module `x`, is **not** imported as a
module when `ignore_not_available = True` — `__get_packages_dict`
raises `MissingDependencyError` instead (its `elif ignore_not_available:`
branch precedes the module/custom branches). -/
theorem C2_counterexample :
    get_packages_dict envC2 [(PackageEndpointType.prescreen, [])]
      PackageEndpointType.prescreen [[("endpoint", SVal.str "x")]] true =
      .error (.missingDependency "Dependency x not available.") := by
  decide

/-- C2 (amended): the loading precedence of `__get_packages_dict` for a
selected package: a lowercased identifier present in the built-in
registry is loaded from the registry (skipped with a console message
when flagged not installed); an identifier absent from the registry
raises `MissingDependencyError` when `ignore_not_available` is set, and
otherwise is imported as an installed Python module when no file
`<identifier>.py` exists in the current directory, or as a custom
package from the project directory when such a file exists — module and
custom results marked by `custom_flag`. -/
theorem C2_get_packages_dict_precedence (env : PyEnv) (packages : Registry)
    (t : PackageEndpointType) (ig : Bool) (sp : Settings) (s : String)
    (m : List (String × PackageEntry))
    (hsp : alLookup sp "endpoint" = some (.str s))
    (hm : alLookup packages t = some m) :
    (∀ e c, alLookup m (pyLower s) = some e → e.installed = some true →
       load_package_endpoint env packages t (pyLower s) = .ok c →
       get_packages_dict env packages t [sp] ig =
         .ok ([(pyLower s, { settings := sp, endpoint := some c })], [])) ∧
    (∀ e, alLookup m (pyLower s) = some e → e.installed = some false →
       get_packages_dict env packages t [sp] ig =
         .ok ([(pyLower s, { settings := sp })],
              ["Cannot load " ++ pyLower s ++ " (not installed)"])) ∧
    (alLookup m (pyLower s) = none → ig = true →
       get_packages_dict env packages t [sp] ig =
         .error (.missingDependency ("Dependency " ++ pyLower s ++ " not available."))) ∧
    (∀ mh, alLookup m (pyLower s) = none → ig = false →
       env.isFile (pyLower s ++ ".py") = false →
       env.importModule (pyLower s) = .ok mh →
       get_packages_dict env packages t [sp] ig =
         .ok ([(pyLower s, { settings := sp, endpoint := some mh, custom_flag := true })], [])) ∧
    (∀ mh, alLookup m (pyLower s) = none → ig = false →
       env.isFile (pyLower s ++ ".py") = true →
       env.importModule (pyLower s) = .ok mh →
       get_packages_dict env packages t [sp] ig =
         .ok ([(pyLower s, { settings := sp, endpoint := some mh, custom_flag := true })], [])) := by
  refine ⟨?_, ?_, ?_, ?_, ?_⟩
  · intro e c he hinst hload
    simp [get_packages_dict, getPackagesGo, processSelected, alUpdate,
      hsp, hm, he, hinst, hload]
  · intro e he hinst
    simp [get_packages_dict, getPackagesGo, processSelected, alUpdate,
      hsp, hm, he, hinst]
  · intro hnone hig
    subst hig
    simp [get_packages_dict, getPackagesGo, processSelected, alUpdate,
      hsp, hm, hnone]
  · intro mh hnone hig hfile himp
    subst hig
    simp [get_packages_dict, getPackagesGo, processSelected, alUpdate,
      hsp, hm, hnone, hfile, himp]
  · intro mh hnone hig hfile himp
    subst hig
    simp [get_packages_dict, getPackagesGo, processSelected, alUpdate,
      hsp, hm, hnone, hfile, himp]

/-- C2 witness (module branch): an identifier absent from the registry
with no local file is imported as a module and marked `custom_flag`
when `ignore_not_available` is off. -/
theorem C2_witness :
    get_packages_dict envC2 [(PackageEndpointType.prescreen, [])]
      PackageEndpointType.prescreen [[("endpoint", SVal.str "x")]] false =
      .ok ([("x", { settings := [("endpoint", SVal.str "x")],
                    endpoint := some "xmodule", custom_flag := true })], []) := by
  have h := (C2_get_packages_dict_precedence envC2 [(.prescreen, [])] .prescreen
    false [("endpoint", SVal.str "x")] "x" [] (by decide) (by decide)).2.2.2.1
  exact h "xmodule" (by decide) rfl (by decide) (by decide)

/-! ### C4: the installed flag set by `__flag_installed_packages` -/

theorem alLookup_modifyEntryAt_ne (reg : Registry) (t0 : PackageEndpointType)
    (id0 : String) (f : PackageEntry → PackageEntry) (t' : PackageEndpointType)
    (ht : t' ≠ t0) :
    alLookup (modifyEntryAt reg t0 id0 f) t' = alLookup reg t' := by
  unfold modifyEntryAt
  rw [alLookup_alModify, if_neg ht]

theorem alLookup2_modifyEntryAt (reg : Registry) (t0 : PackageEndpointType)
    (id0 : String) (f : PackageEntry → PackageEntry)
    (t : PackageEndpointType) (id : String) :
    alLookup2 (modifyEntryAt reg t0 id0 f) t id =
      if t = t0 ∧ id = id0 then Option.map f (alLookup2 reg t id)
      else alLookup2 reg t id := by
  unfold alLookup2 modifyEntryAt
  rw [alLookup_alModify]
  by_cases ht : t = t0
  · subst ht
    rw [if_pos rfl]
    cases hm : alLookup reg t with
    | none => simp
    | some m =>
      simp only [Option.map_some']
      rw [alLookup_alModify]
      by_cases hid : id = id0
      · subst hid
        rw [if_pos rfl]
        simp
      · rw [if_neg hid, if_neg (by rintro ⟨-, h⟩; exact hid h)]
  · rw [if_neg ht, if_neg (by rintro ⟨h, -⟩; exact ht h)]

theorem keys_modifyEntryAt (reg : Registry) (t0 : PackageEndpointType)
    (id0 : String) (f : PackageEntry → PackageEntry) (t' : PackageEndpointType) :
    Option.map (List.map Prod.fst) (alLookup (modifyEntryAt reg t0 id0 f) t') =
      Option.map (List.map Prod.fst) (alLookup reg t') := by
  unfold modifyEntryAt
  rw [alLookup_alModify]
  by_cases ht : t' = t0
  · subst ht
    rw [if_pos rfl]
    cases alLookup reg t' <;> simp [alModify_keys]
  · rw [if_neg ht]

theorem outerKeys_modifyEntryAt (reg : Registry) (t0 : PackageEndpointType)
    (id0 : String) (f : PackageEntry → PackageEntry) :
    (modifyEntryAt reg t0 id0 f).map Prod.fst = reg.map Prod.fst :=
  alModify_keys reg t0 _

theorem loadOk_congr (env : PyEnv) {reg reg' : Registry}
    (h : ∀ t id, load_package_endpoint env reg' t id =
      load_package_endpoint env reg t id)
    (t : PackageEndpointType) (id : String) :
    loadOk env reg' t id = loadOk env reg t id := by
  unfold loadOk
  rw [h]

theorem loadOk_iff (env : PyEnv) (reg : Registry) (t : PackageEndpointType)
    (id : String) :
    loadOk env reg t id = true ↔
      ∃ c, load_package_endpoint env reg t id = .ok c := by
  unfold loadOk
  cases h : load_package_endpoint env reg t id <;> simp

theorem alLookup_isSome_of_mem_keys [DecidableEq α] {l : List (α × β)} {k : α}
    (h : k ∈ l.map Prod.fst) : ∃ v, alLookup l k = some v := by
  induction l with
  | nil => simp at h
  | cons hd tl ih =>
    obtain ⟨a, b⟩ := hd
    by_cases hka : k = a
    · subst hka; exact ⟨b, by simp [alLookup]⟩
    · simp only [List.map_cons, List.mem_cons] at h
      rcases h with h | h
      · exact absurd h hka
      · obtain ⟨v, hv⟩ := ih h
        exact ⟨v, by simp [alLookup, hka, hv]⟩

theorem flagSpec_step (env : PyEnv) (t : PackageEndpointType) (id : String)
    (ids : List String) (b : Bool) (reg reg' : Registry)
    (hid_nd : id ∉ ids)
    (hb : b = loadOk env reg t id)
    (hmnf : b = false → isMnfAttr (load_package_endpoint env reg t id) = true)
    (h1 : FlagSpec env t ids
      (modifyEntryAt reg t id (fun e => { e with installed := some b })) reg') :
    FlagSpec env t (id :: ids) reg reg' := by
  obtain ⟨L, O, U, P, K, T⟩ := h1
  have hload1 : ∀ t' id',
      load_package_endpoint env
        (modifyEntryAt reg t id (fun e => { e with installed := some b })) t' id' =
      load_package_endpoint env reg t' id' :=
    fun t' id' => load_modifyEntryAt env reg t id
      (fun e => { e with installed := some b }) (fun e => rfl) t' id'
  have hLoadAll : ∀ t' id',
      load_package_endpoint env reg' t' id' = load_package_endpoint env reg t' id' :=
    fun t' id' => (L t' id').trans (hload1 t' id')
  refine ⟨hLoadAll, ?_, ?_, ?_, ?_, ?_⟩
  · intro t' ht'
    rw [O t' ht', alLookup_modifyEntryAt_ne reg t id _ t' ht']
  · intro id' hid'
    have h2 : id' ∉ ids := fun h => hid' (List.mem_cons_of_mem _ h)
    have h3 : id' ≠ id := fun h => hid' (h ▸ List.mem_cons_self _ _)
    rw [U id' h2, alLookup2_modifyEntryAt,
      if_neg (by rintro ⟨-, h⟩; exact h3 h)]
  · intro id' hid'
    rcases List.mem_cons.mp hid' with hid' | hid'
    · subst hid'
      constructor
      · rw [U id' hid_nd, alLookup2_modifyEntryAt, if_pos ⟨rfl, rfl⟩, hb]
      · intro hfalse
        exact hmnf (hb.trans hfalse)
    · have h3 : id' ≠ id := fun h => hid_nd (h ▸ hid')
      obtain ⟨P1, P2⟩ := P id' hid'
      have hAl : alLookup2
          (modifyEntryAt reg t id (fun e => { e with installed := some b })) t id' =
          alLookup2 reg t id' := by
        rw [alLookup2_modifyEntryAt, if_neg (by rintro ⟨-, h⟩; exact h3 h)]
      have hLo : loadOk env
          (modifyEntryAt reg t id (fun e => { e with installed := some b })) t id' =
          loadOk env reg t id' := loadOk_congr env hload1 t id'
      constructor
      · rw [P1, hAl, hLo]
      · intro hfalse
        have := P2 (by rw [hLo]; exact hfalse)
        rwa [hload1] at this
  · intro t'
    rw [K t', keys_modifyEntryAt]
  · rw [T, outerKeys_modifyEntryAt]

theorem flagEntries_ok_spec (env : PyEnv) (t : PackageEndpointType) :
    ∀ (ids : List String) (reg reg' : Registry), ids.Nodup →
    flagEntries env t reg ids = .ok reg' →
    FlagSpec env t ids reg reg' := by
  intro ids
  induction ids with
  | nil =>
    intro reg reg' hnd hok
    simp only [flagEntries, Except.ok.injEq] at hok
    subst hok
    exact ⟨fun _ _ => rfl, fun _ _ => rfl, fun _ _ => rfl, by simp,
      fun _ => rfl, rfl⟩
  | cons id ids ih =>
    intro reg reg' hnd hok
    rw [flagEntries] at hok
    rw [List.nodup_cons] at hnd
    obtain ⟨hid_nd, hnd⟩ := hnd
    cases hload : load_package_endpoint env reg t id with
    | ok c =>
      rw [hload] at hok
      refine flagSpec_step env t id ids true reg reg' hid_nd ?_ ?_ (ih _ _ hnd hok)
      · unfold loadOk; rw [hload]
      · intro h; exact absurd h (by simp)
    | error e =>
      rw [hload] at hok
      cases e with
      | moduleNotFound mn =>
        refine flagSpec_step env t id ids false reg reg' hid_nd ?_ ?_ (ih _ _ hnd hok)
        · unfold loadOk; rw [hload]
        · intro _; rw [hload]; rfl
      | attributeError a =>
        refine flagSpec_step env t id ids false reg reg' hid_nd ?_ ?_ (ih _ _ hnd hok)
        · unfold loadOk; rw [hload]
        · intro _; rw [hload]; rfl
      | missingDependency msg => exact Except.noConfusion hok
      | colrevException msg => exact Except.noConfusion hok
      | keyError k => exact Except.noConfusion hok
      | assertionError => exact Except.noConfusion hok
      | valueError => exact Except.noConfusion hok
      | typeError => exact Except.noConfusion hok
      | runtimeError msg => exact Except.noConfusion hok

theorem flagTypes_ok_spec (env : PyEnv) :
    ∀ (ts : List PackageEndpointType) (reg reg' : Registry), ts.Nodup →
    (∀ t m, alLookup reg t = some m → (m.map Prod.fst).Nodup) →
    flagTypes env reg ts = .ok reg' →
    FlagTypesSpec env ts reg reg' := by
  intro ts
  induction ts with
  | nil =>
    intro reg reg' hnd hI hok
    simp only [flagTypes, Except.ok.injEq] at hok
    subst hok
    exact ⟨fun _ _ => rfl, fun _ _ => rfl, by simp, fun _ => rfl, rfl⟩
  | cons t ts ih =>
    intro reg reg' hnd hI hok
    rw [flagTypes] at hok
    rw [List.nodup_cons] at hnd
    obtain ⟨ht_nd, hnd⟩ := hnd
    cases hmt : alLookup reg t with
    | none =>
      simp only [hmt] at hok
      obtain ⟨L, O, P, K, T⟩ := ih reg reg' hnd hI hok
      refine ⟨L, ?_, ?_, K, T⟩
      · intro t' ht'
        exact O t' (fun h => ht' (List.mem_cons_of_mem _ h))
      · intro t' ht' m0 hm0
        rcases List.mem_cons.mp ht' with ht' | ht'
        · subst ht'; rw [hmt] at hm0; exact Option.noConfusion hm0
        · exact P t' ht' m0 hm0
    | some m =>
      simp only [hmt] at hok
      cases hfe : flagEntries env t reg (m.map Prod.fst) with
      | error e =>
        simp only [hfe] at hok
        exact Except.noConfusion hok
      | ok reg1 =>
        simp only [hfe] at hok
        have hnd_inner : ((m.map Prod.fst) : List String).Nodup := hI t m hmt
        obtain ⟨EL, EO, EU, EP, EK, ET⟩ :=
          flagEntries_ok_spec env t (m.map Prod.fst) reg reg1 hnd_inner hfe
        have hI1 : ∀ t' m', alLookup reg1 t' = some m' → (m'.map Prod.fst).Nodup := by
          intro t' m' hm'
          have hk := EK t'
          rw [hm'] at hk
          cases hm0 : alLookup reg t' with
          | none => rw [hm0] at hk; exact Option.noConfusion hk
          | some m0 =>
            rw [hm0] at hk
            simp only [Option.map_some', Option.some.injEq] at hk
            rw [hk]
            exact hI t' m0 hm0
        obtain ⟨TL, TO, TP, TK, TT⟩ := ih reg1 reg' hnd hI1 hok
        have hLoadAll : ∀ t' id',
            load_package_endpoint env reg' t' id' =
            load_package_endpoint env reg t' id' :=
          fun t' id' => (TL t' id').trans (EL t' id')
        refine ⟨hLoadAll, ?_, ?_, ?_, ?_⟩
        · intro t' ht'
          have h1 : t' ∉ ts := fun h => ht' (List.mem_cons_of_mem _ h)
          have h2 : t' ≠ t := fun h => ht' (h ▸ List.mem_cons_self _ _)
          rw [TO t' h1, EO t' h2]
        · intro t' ht' m0 hm0 id hid
          rcases List.mem_cons.mp ht' with ht' | ht'
          · subst ht'
            rw [hmt] at hm0
            have hm0' : m0 = m := by
              have := hm0.symm
              exact (Option.some.injEq _ _).mp this
            subst hm0'
            have hA2 : alLookup2 reg' t' id = alLookup2 reg1 t' id := by
              unfold alLookup2
              rw [TO t' ht_nd]
            rw [hA2]
            exact EP id hid
          · have hne : t' ≠ t := fun h => ht_nd (h ▸ ht')
            have hm1 : alLookup reg1 t' = some m0 := by rw [EO t' hne]; exact hm0
            obtain ⟨P1, P2⟩ := TP t' ht' m0 hm1 id hid
            have hA2 : alLookup2 reg1 t' id = alLookup2 reg t' id := by
              unfold alLookup2
              rw [EO t' hne]
            have hLo : loadOk env reg1 t' id = loadOk env reg t' id :=
              loadOk_congr env EL t' id
            constructor
            · rw [P1, hA2, hLo]
            · intro hfalse
              have h2 := P2 (by rw [hLo]; exact hfalse)
              rwa [EL] at h2
        · intro t'
          exact (TK t').trans (EK t')
        · exact TT.trans ET

theorem flagEntries_error_not_caught (env : PyEnv) (t : PackageEndpointType) :
    ∀ (ids : List String) (reg : Registry) (err : PyErr),
    flagEntries env t reg ids = .error err → isMnfAttrErr err = false := by
  intro ids
  induction ids with
  | nil => intro reg err h; exact Except.noConfusion h
  | cons id ids ih =>
    intro reg err h
    rw [flagEntries] at h
    cases hload : load_package_endpoint env reg t id with
    | ok c => rw [hload] at h; exact ih _ _ h
    | error e =>
      rw [hload] at h
      cases e with
      | moduleNotFound mn => exact ih _ _ h
      | attributeError a => exact ih _ _ h
      | missingDependency msg => injection h with h'; subst h'; rfl
      | colrevException msg => injection h with h'; subst h'; rfl
      | keyError k => injection h with h'; subst h'; rfl
      | assertionError => injection h with h'; subst h'; rfl
      | valueError => injection h with h'; subst h'; rfl
      | typeError => injection h with h'; subst h'; rfl
      | runtimeError msg => injection h with h'; subst h'; rfl

theorem flagTypes_error_not_caught (env : PyEnv) :
    ∀ (ts : List PackageEndpointType) (reg : Registry) (err : PyErr),
    flagTypes env reg ts = .error err → isMnfAttrErr err = false := by
  intro ts
  induction ts with
  | nil => intro reg err h; exact Except.noConfusion h
  | cons t ts ih =>
    intro reg err h
    rw [flagTypes] at h
    cases hmt : alLookup reg t with
    | none => simp only [hmt] at h; exact ih _ _ h
    | some m =>
      simp only [hmt] at h
      cases hfe : flagEntries env t reg (m.map Prod.fst) with
      | ok reg1 => simp only [hfe] at h; exact ih _ _ h
      | error e =>
        simp only [hfe] at h
        injection h with h'
        subst h'
        exact flagEntries_error_not_caught env t _ reg e hfe

/-- C4: after `PackageManager.__init__` (index loading followed by
`__flag_installed_packages`), every package entry of every type carries
an `installed` flag, the flag is `True` exactly when
`load_package_endpoint` succeeds for that (type, identifier) pair, a
`False` flag comes only from `AttributeError` or `ModuleNotFoundError`,
and any other exception propagates (aborting construction with an
exception that is neither of the two caught ones). -/
theorem C4_installed_flag_invariant (env : PyEnv) (fd : Option String)
    (reg0 : Registry)
    (h0 : load_package_endpoints_index env fd = .ok reg0)
    (hT : (reg0.map Prod.fst).Nodup)
    (hI : ∀ t m, alLookup reg0 t = some m → (m.map Prod.fst).Nodup) :
    (∀ reg', packageManagerInit env fd = .ok reg' →
      ∀ t m, alLookup reg' t = some m → ∀ id e, alLookup m id = some e →
        ∃ b, e.installed = some b ∧
          (b = true ↔ ∃ c, load_package_endpoint env reg' t id = .ok c) ∧
          (b = false →
            isMnfAttr (load_package_endpoint env reg' t id) = true)) ∧
    (∀ err, packageManagerInit env fd = .error err → isMnfAttrErr err = false) := by
  constructor
  · intro reg' hok t m hm id e he
    rw [packageManagerInit, h0] at hok
    have hflag : flagTypes env reg0 (reg0.map Prod.fst) = .ok reg' := hok
    obtain ⟨L, O, P, K, T⟩ :=
      flagTypes_ok_spec env (reg0.map Prod.fst) reg0 reg' hT hI hflag
    have htk : t ∈ reg'.map Prod.fst := alLookup_mem_keys hm
    rw [T] at htk
    obtain ⟨m0, hm0⟩ := alLookup_isSome_of_mem_keys htk
    have hkeys := K t
    rw [hm, hm0] at hkeys
    simp only [Option.map_some', Option.some.injEq] at hkeys
    have hidk : id ∈ m0.map Prod.fst := by
      rw [← hkeys]
      exact alLookup_mem_keys he
    obtain ⟨hP1, hP2⟩ := P t htk m0 hm0 id hidk
    have hA : alLookup2 reg' t id = some e := by
      unfold alLookup2
      rw [hm]
      exact he
    rw [hA] at hP1
    cases hA0 : alLookup2 reg0 t id with
    | none => rw [hA0] at hP1; exact Option.noConfusion hP1
    | some e0 =>
      rw [hA0] at hP1
      simp only [Option.map_some', Option.some.injEq] at hP1
      refine ⟨loadOk env reg0 t id, ?_, ?_, ?_⟩
      · rw [hP1]
      · constructor
        · intro hb
          rw [← loadOk_iff, loadOk_congr env L t id]
          exact hb
        · rintro ⟨c, hc⟩
          have hb : loadOk env reg' t id = true :=
            (loadOk_iff env reg' t id).mpr ⟨c, hc⟩
          rw [loadOk_congr env L t id] at hb
          exact hb
      · intro hb
        rw [L t id]
        exact hP2 hb
  · intro err herr
    rw [packageManagerInit, h0] at herr
    have hflag : flagTypes env reg0 (reg0.map Prod.fst) = .error err := herr
    exact flagTypes_error_not_caught env (reg0.map Prod.fst) reg0 err hflag

/-- C4 witness: a concrete one-package index is flagged installed after
construction, and the flag matches loadability. -/
theorem C4_witness :
    ∃ b, ({ endpoint := "mod.C", installed := some true } : PackageEntry).installed
        = some b ∧
      (b = true ↔ ∃ c, load_package_endpoint envIdx
        [(.prescreen, [("x", { endpoint := "mod.C", installed := some true })])]
        PackageEndpointType.prescreen "x" = .ok c) ∧
      (b = false → isMnfAttr (load_package_endpoint envIdx
        [(.prescreen, [("x", { endpoint := "mod.C", installed := some true })])]
        PackageEndpointType.prescreen "x") = true) :=
  (C4_installed_flag_invariant envIdx (some "INDEX")
      [(.prescreen, [("x", { endpoint := "mod.C" })])]
      (by decide) (by decide)
      (by
        intro t m hm
        cases t <;> simp [alLookup] at hm <;> subst hm <;> decide)).1
    [(.prescreen, [("x", { endpoint := "mod.C", installed := some true })])]
    (by decide)
    .prescreen [("x", { endpoint := "mod.C", installed := some true })] (by decide)
    "x" { endpoint := "mod.C", installed := some true } (by decide)

/-! ### C7: `discover_packages` does not filter the registry mapping -/

theorem discoverSpec_step (env : PyEnv) (t : PackageEndpointType) (io_ : Bool)
    (id : String) (e : PackageEntry) (rest : List (String × PackageEntry))
    (reg reg' : Registry) (f g : PackageEntry → PackageEntry)
    (hf : ∀ e0, (f e0).endpoint = e0.endpoint)
    (hg : ∀ e0, (g e0).endpoint = e0.endpoint)
    (hid_nd : id ∉ rest.map Prod.fst)
    (hvac : io_ = true → e.installed = some false → False)
    (hspec : DiscoverSpec env t io_ rest
      (modifyEntryAt (modifyEntryAt reg t id f) t id g) reg') :
    DiscoverSpec env t io_ ((id, e) :: rest) reg reg' := by
  obtain ⟨L, K, U, S, O⟩ := hspec
  have hload2 : ∀ t' id',
      load_package_endpoint env
        (modifyEntryAt (modifyEntryAt reg t id f) t id g) t' id' =
      load_package_endpoint env reg t' id' := by
    intro t' id'
    rw [load_modifyEntryAt env _ t id g hg t' id',
        load_modifyEntryAt env reg t id f hf t' id']
  have hA2 : ∀ id', id' ≠ id →
      alLookup2 (modifyEntryAt (modifyEntryAt reg t id f) t id g) t id' =
      alLookup2 reg t id' := by
    intro id' hne
    rw [alLookup2_modifyEntryAt, if_neg (by rintro ⟨-, h⟩; exact hne h),
        alLookup2_modifyEntryAt, if_neg (by rintro ⟨-, h⟩; exact hne h)]
  refine ⟨?_, ?_, ?_, ?_, ?_⟩
  · intro t' id'
    rw [L t' id', hload2 t' id']
  · intro t'
    rw [K t', keys_modifyEntryAt, keys_modifyEntryAt]
  · intro id' hid'
    simp only [List.map_cons, List.mem_cons, not_or] at hid'
    obtain ⟨h1, h2⟩ := hid'
    rw [U id' h2, hA2 id' h1]
  · intro p hp hio hinst
    rcases List.mem_cons.mp hp with hp | hp
    · subst hp
      exact (hvac hio hinst).elim
    · have hne : p.1 ≠ id := by
        intro hh
        exact hid_nd (hh ▸ List.mem_map.mpr ⟨p, hp, rfl⟩)
      rw [S p hp hio hinst, hA2 p.1 hne]
  · intro t' hne
    rw [O t' hne, alLookup_modifyEntryAt_ne _ t id g t' hne,
        alLookup_modifyEntryAt_ne reg t id f t' hne]

theorem discoverGo_ok_spec (env : PyEnv) (t : PackageEndpointType) (io_ : Bool) :
    ∀ (items : List (String × PackageEntry)) (reg reg' : Registry),
    (items.map Prod.fst).Nodup →
    discoverGo env t io_ reg items = .ok reg' →
    DiscoverSpec env t io_ items reg reg' := by
  intro items
  induction items with
  | nil =>
    intro reg reg' hnd hok
    simp only [discoverGo, Except.ok.injEq] at hok
    subst hok
    exact ⟨fun _ _ => rfl, fun _ => rfl, fun _ _ => rfl, by simp, fun _ _ => rfl⟩
  | cons p rest ih =>
    obtain ⟨id, e⟩ := p
    intro reg reg' hnd hok
    simp only [List.map_cons, List.nodup_cons] at hnd
    obtain ⟨hid_nd, hnd⟩ := hnd
    rw [discoverGo] at hok
    cases io_ with
    | true =>
      simp only [if_true] at hok
      cases hinst : e.installed with
      | none =>
        simp only [hinst] at hok
        exact Except.noConfusion hok
      | some b =>
        cases b with
        | false =>
          simp only [hinst] at hok
          obtain ⟨L, K, U, S, O⟩ := ih reg reg' hnd hok
          refine ⟨L, K, ?_, ?_, O⟩
          · intro id' hid'
            simp only [List.map_cons, List.mem_cons, not_or] at hid'
            exact U id' hid'.2
          · intro p hp hio hinstp
            rcases List.mem_cons.mp hp with hp | hp
            · subst hp
              exact U id hid_nd
            · exact S p hp hio hinstp
        | true =>
          simp only [hinst] at hok
          cases hstep : discoverStepRes env t reg id e with
          | error err =>
            simp only [hstep] at hok
            exact Except.noConfusion hok
          | ok reg1 =>
            simp only [hstep] at hok
            rw [discoverStepRes] at hstep
            cases hload : load_package_endpoint env reg t id with
            | error err =>
              rw [hload] at hstep
              exact Except.noConfusion hstep
            | ok c =>
              rw [hload, hinst] at hstep
              simp only [Except.ok.injEq] at hstep
              subst hstep
              refine discoverSpec_step env t true id e rest reg reg'
                (fun e0 => { e0 with description := some (env.doc c) })
                (fun e0 => { e0 with installed := some true })
                (fun e0 => rfl) (fun e0 => rfl) hid_nd ?_ (ih _ _ hnd hok)
              intro _ hfalse
              rw [hinst] at hfalse
              simp at hfalse
    | false =>
      simp only [Bool.false_eq_true, if_false] at hok
      cases hstep : discoverStepRes env t reg id e with
      | error err =>
        simp only [hstep] at hok
        exact Except.noConfusion hok
      | ok reg1 =>
        simp only [hstep] at hok
        rw [discoverStepRes] at hstep
        cases hload : load_package_endpoint env reg t id with
        | error err =>
          rw [hload] at hstep
          exact Except.noConfusion hstep
        | ok c =>
          rw [hload] at hstep
          cases hinst : e.installed with
          | none =>
            rw [hinst] at hstep
            exact Except.noConfusion hstep
          | some b =>
            rw [hinst] at hstep
            simp only [Except.ok.injEq] at hstep
            subst hstep
            refine discoverSpec_step env t false id e rest reg reg'
              (fun e0 => { e0 with description := some (env.doc c) })
              (fun e0 => { e0 with installed := some b })
              (fun e0 => rfl) (fun e0 => rfl) hid_nd ?_ (ih _ _ hnd hok)
            intro h
            exact Bool.noConfusion h

theorem discoverGo_total (env : PyEnv) (t : PackageEndpointType) :
    ∀ (items : List (String × PackageEntry)) (reg : Registry),
    (∀ p ∈ items, ∃ b, p.2.installed = some b ∧
       (b = true → loadOk env reg t p.1 = true)) →
    ∃ reg', discoverGo env t true reg items = .ok reg' := by
  intro items
  induction items with
  | nil => intro reg H; exact ⟨reg, rfl⟩
  | cons p rest ih =>
    obtain ⟨id, e⟩ := p
    intro reg H
    obtain ⟨b, hinst, hb⟩ := H (id, e) (List.mem_cons_self _ _)
    have hinstE : e.installed = some b := hinst
    rw [discoverGo]
    cases b with
    | false =>
      simp only [if_true, hinstE]
      exact ih reg (fun q hq => H q (List.mem_cons_of_mem _ hq))
    | true =>
      simp only [if_true, hinstE]
      have hloadok : loadOk env reg t id = true := hb rfl
      rw [loadOk] at hloadok
      cases hload : load_package_endpoint env reg t id with
      | error err =>
        rw [hload] at hloadok
        exact Bool.noConfusion hloadok
      | ok c =>
        have hstep : discoverStepRes env t reg id e =
            .ok (modifyEntryAt
                  (modifyEntryAt reg t id
                    (fun e0 => { e0 with description := some (env.doc c) }))
                  t id (fun e0 => { e0 with installed := some true })) := by
          rw [discoverStepRes, hload, hinstE]
        simp only [hstep]
        have hLL : ∀ t' id',
            load_package_endpoint env
              (modifyEntryAt
                (modifyEntryAt reg t id
                  (fun e0 => { e0 with description := some (env.doc c) }))
                t id (fun e0 => { e0 with installed := some true })) t' id' =
            load_package_endpoint env reg t' id' := by
          intro t' id'
          rw [load_modifyEntryAt env _ t id
                (fun e0 => { e0 with installed := some true }) (fun e0 => rfl) t' id',
              load_modifyEntryAt env reg t id
                (fun e0 => { e0 with description := some (env.doc c) })
                (fun e0 => rfl) t' id']
        apply ih
        intro q hq
        obtain ⟨b', hinst', hb'⟩ := H q (List.mem_cons_of_mem _ hq)
        refine ⟨b', hinst', fun hbt => ?_⟩
        rw [loadOk_congr env hLL t q.1]
        exact hb' hbt

/-- C7 counterexample: with `installed_only = False`, `discover_packages`
does **not** return the mapping when a package flagged not installed
fails to load — its `ModuleNotFoundError` propagates uncaught (the guard
only skips such packages when `installed_only` is set). -/
theorem C7_counterexample :
    discover_packages envBroken regNotInstalled
      PackageEndpointType.prescreen false = .error (.moduleNotFound "m") := by
  decide

/-- C7 (amended): `discover_packages` never filters the mapping: when
it returns, the returned dict has exactly the registry's identifiers
for the type, and entries flagged `installed = False` are still present
unchanged when `installed_only = True` (the flag only caused the
`description` attribute not to be attached); with `installed_only =
True` and flags consistent with loadability the call always returns.
With `installed_only = False`, however, a load failure propagates as an
exception instead of a return (see the counterexample). -/
theorem C7_discover_packages_no_filtering (env : PyEnv) (reg : Registry)
    (t : PackageEndpointType) (io_ : Bool) (m : List (String × PackageEntry))
    (hm : alLookup reg t = some m) (hnd : (m.map Prod.fst).Nodup) :
    (∀ d, discover_packages env reg t io_ = .ok d →
       d.map Prod.fst = m.map Prod.fst ∧
       (∀ p ∈ m, io_ = true → p.2.installed = some false →
          alLookup d p.1 = some p.2)) ∧
    (io_ = true →
      (∀ p ∈ m, ∃ b, p.2.installed = some b ∧
         (b = true → loadOk env reg t p.1 = true)) →
      ∃ d, discover_packages env reg t io_ = .ok d) := by
  constructor
  · intro d hok
    rw [discover_packages] at hok
    simp only [hm] at hok
    cases hgo : discoverGo env t io_ reg m with
    | error err =>
      simp only [hgo] at hok
      exact Except.noConfusion hok
    | ok regF =>
      simp only [hgo] at hok
      obtain ⟨L, K, U, S, O⟩ := discoverGo_ok_spec env t io_ m reg regF hnd hgo
      have hkeysF := K t
      rw [hm] at hkeysF
      cases halF : alLookup regF t with
      | none =>
        rw [halF] at hkeysF
        exact Option.noConfusion hkeysF
      | some mF =>
        rw [halF] at hkeysF
        simp only [Option.map_some', Option.some.injEq] at hkeysF
        simp only [halF, Except.ok.injEq] at hok
        subst hok
        constructor
        · exact hkeysF
        · intro p hp hio hinst
          have hS := S p hp hio hinst
          have hself : alLookup m p.1 = some p.2 := alLookup_self_of_nodup hnd p hp
          have hA : alLookup2 reg t p.1 = some p.2 := by
            unfold alLookup2
            rw [hm]
            exact hself
          rw [hA] at hS
          unfold alLookup2 at hS
          rw [halF] at hS
          exact hS
  · intro hio H
    subst hio
    obtain ⟨regF, hgo⟩ := discoverGo_total env t m reg H
    obtain ⟨L, K, U, S, O⟩ := discoverGo_ok_spec env t true m reg regF hnd hgo
    have hkeysF := K t
    rw [hm] at hkeysF
    cases halF : alLookup regF t with
    | none =>
      rw [halF] at hkeysF
      exact Option.noConfusion hkeysF
    | some mF =>
      refine ⟨mF, ?_⟩
      rw [discover_packages]
      simp only [hm, hgo, halF]

/-- C7 witness: a not-installed entry (whose import would fail) remains
unchanged in the returned dict when `installed_only = True`. -/
theorem C7_witness :
    alLookup [("x", ({ endpoint := "m.C", installed := some false } : PackageEntry))]
      "x" = some { endpoint := "m.C", installed := some false } :=
  ((C7_discover_packages_no_filtering envBroken regNotInstalled .prescreen true
      [("x", { endpoint := "m.C", installed := some false })]
      (by decide) (by decide)).1
    [("x", { endpoint := "m.C", installed := some false })] (by decide)).2
    ("x", { endpoint := "m.C", installed := some false }) (by decide) rfl (by decide)

/-! ### C8: heap lemmas for the frame property of `load_packages` -/

theorem heapPreserved_refl (n0 : Nat) (h : Heap) : HeapPreserved n0 h h :=
  ⟨le_refl _, fun _ _ => rfl⟩

theorem heapPreserved_trans {n0 : Nat} {h1 h2 h3 : Heap}
    (p : HeapPreserved n0 h1 h2) (q : HeapPreserved n0 h2 h3) :
    HeapPreserved n0 h1 h3 :=
  ⟨le_trans p.1 q.1, fun r hr => (q.2 r hr).trans (p.2 r hr)⟩

theorem hget_halloc_lt (h : Heap) (o : HObj) (r : Nat) (hr : r < h.next) :
    hget (halloc h o).1 r = hget h r := by
  show alLookup ((h.next, o) :: h.mem) r = alLookup h.mem r
  rw [alLookup, if_neg (Nat.ne_of_lt hr)]

theorem heapPreserved_halloc (n0 : Nat) (h : Heap) (o : HObj) (hn : n0 ≤ h.next) :
    HeapPreserved n0 h (halloc h o).1 :=
  ⟨Nat.le_succ _, fun r hr => hget_halloc_lt h o r (lt_of_lt_of_le hr hn)⟩

theorem hget_hput_ne (h : Heap) (r : Nat) (o : HObj) (r' : Nat) (hne : r' ≠ r) :
    hget (hput h r o) r' = hget h r' := by
  show alLookup (alModify h.mem r (fun _ => o)) r' = alLookup h.mem r'
  rw [alLookup_alModify, if_neg hne]

theorem hget_hput_self (h : Heap) (r : Nat) (o d0 : HObj) (hd0 : hget h r = some d0) :
    hget (hput h r o) r = some o := by
  show alLookup (alModify h.mem r (fun _ => o)) r = some o
  rw [alLookup_alModify, if_pos rfl]
  show Option.map (fun _ => o) (alLookup h.mem r) = some o
  rw [show alLookup h.mem r = some d0 from hd0]
  rfl

theorem hget_hdictSet_ne (h : Heap) (r : Nat) (k : String) (v : HVal) (r' : Nat)
    (hne : r' ≠ r) : hget (hdictSet h r k v) r' = hget h r' := by
  unfold hdictSet
  cases hobj : hget h r with
  | none => rfl
  | some o =>
    cases o with
    | list l => rfl
    | dict d => exact hget_hput_ne h r _ r' hne

theorem hdictSet_next (h : Heap) (r : Nat) (k : String) (v : HVal) :
    (hdictSet h r k v).next = h.next := by
  unfold hdictSet
  cases hobj : hget h r with
  | none => rfl
  | some o => cases o <;> rfl

theorem heapPreserved_hdictSet (n0 : Nat) (h : Heap) (r : Nat) (k : String)
    (v : HVal) (hr : n0 ≤ r) : HeapPreserved n0 h (hdictSet h r k v) := by
  refine ⟨le_of_eq (hdictSet_next h r k v).symm, fun r' hr' => ?_⟩
  exact hget_hdictSet_ne h r k v r' (Nat.ne_of_lt (lt_of_lt_of_le hr' hr))

theorem hget_hdictDel_ne (h : Heap) (r : Nat) (k : String) (r' : Nat)
    (hne : r' ≠ r) : hget (hdictDel h r k) r' = hget h r' := by
  unfold hdictDel
  cases hobj : hget h r with
  | none => rfl
  | some o =>
    cases o with
    | list l => rfl
    | dict d => exact hget_hput_ne h r _ r' hne

theorem hdictDel_next (h : Heap) (r : Nat) (k : String) :
    (hdictDel h r k).next = h.next := by
  unfold hdictDel
  cases hobj : hget h r with
  | none => rfl
  | some o => cases o <;> rfl

theorem heapPreserved_hdictDel (n0 : Nat) (h : Heap) (r : Nat) (k : String)
    (hr : n0 ≤ r) : HeapPreserved n0 h (hdictDel h r k) := by
  refine ⟨le_of_eq (hdictDel_next h r k).symm, fun r' hr' => ?_⟩
  exact hget_hdictDel_ne h r k r' (Nat.ne_of_lt (lt_of_lt_of_le hr' hr))

theorem pdge_halloc (n0 : Nat) (h : Heap) (pdRef : Nat) (o : HObj)
    (hlt : pdRef < h.next) (hpd : PdGE n0 h pdRef) :
    PdGE n0 (halloc h o).1 pdRef := by
  intro d hd
  rw [hget_halloc_lt h o pdRef hlt] at hd
  exact hpd d hd

theorem pdge_write_other (n0 : Nat) (h : Heap) (pdRef r : Nat) (k : String)
    (v : HVal) (hne : r ≠ pdRef) (hpd : PdGE n0 h pdRef) :
    PdGE n0 (hdictSet h r k v) pdRef := by
  intro d hd
  rw [hget_hdictSet_ne h r k v pdRef (Ne.symm hne)] at hd
  exact hpd d hd

theorem pdge_hdictSet_pd (n0 : Nat) (h : Heap) (pdRef : Nat) (k : String)
    (v : HVal) (hv : hvalRefGE n0 v) (hpd : PdGE n0 h pdRef) :
    PdGE n0 (hdictSet h pdRef k v) pdRef := by
  intro d hd
  unfold hdictSet at hd
  cases hobj : hget h pdRef with
  | none =>
    simp only [hobj] at hd
    exact Option.noConfusion hd
  | some o =>
    cases o with
    | list l =>
      simp only [hobj] at hd
      exact HObj.noConfusion (Option.some.inj hd)
    | dict d0 =>
      simp only [hobj] at hd
      rw [hget_hput_self h pdRef _ _ hobj] at hd
      simp only [Option.some.injEq, HObj.dict.injEq] at hd
      subst hd
      intro p hp
      rcases mem_alUpdate hp with hp | hp
      · subst hp; exact hv
      · exact hpd d0 hobj p hp

theorem pdge_hdictDel_pd (n0 : Nat) (h : Heap) (pdRef : Nat) (k : String)
    (hpd : PdGE n0 h pdRef) : PdGE n0 (hdictDel h pdRef k) pdRef := by
  intro d hd
  unfold hdictDel at hd
  cases hobj : hget h pdRef with
  | none =>
    simp only [hobj] at hd
    exact Option.noConfusion hd
  | some o =>
    cases o with
    | list l =>
      simp only [hobj] at hd
      exact HObj.noConfusion (Option.some.inj hd)
    | dict d0 =>
      simp only [hobj] at hd
      rw [hget_hput_self h pdRef _ _ hobj] at hd
      simp only [Option.some.injEq, HObj.dict.injEq] at hd
      subst hd
      intro p hp
      exact hpd d0 hobj p (mem_alErase hp)

theorem hvalRefGE_mono {n n' : Nat} (hle : n ≤ n') {v : HVal}
    (hv : hvalRefGE n' v) : hvalRefGE n v := by
  cases v with
  | ref r => exact le_trans hle hv
  | str s => trivial
  | boolv b => trivial
  | handle hh => trivial

theorem heapPreserved_chain {h h1 h2 : Heap}
    (p : HeapPreserved h.next h h1) (q : HeapPreserved h1.next h1 h2) :
    HeapPreserved h.next h h2 :=
  ⟨le_trans p.1 q.1, fun r hr => (q.2 r (lt_of_lt_of_le hr p.1)).trans (p.2 r hr)⟩

theorem deepcopy_spec :
    ∀ (fuel : Nat) (h : Heap) (task : CopyTask) (h' : Heap) (res : CopyRes),
    deepcopy fuel h task = some (h', res) →
    HeapPreserved h.next h h' ∧ copyResRefGE h.next res := by
  intro fuel
  induction fuel with
  | zero => intro h task h' res hc; exact Option.noConfusion hc
  | succ fuel ih =>
    intro h task h' res hc
    cases task with
    | val v =>
      cases v with
      | ref r =>
        simp only [deepcopy] at hc
        cases hobj : hget h r with
        | none =>
          simp only [hobj] at hc
          exact Option.noConfusion hc
        | some o =>
          cases o with
          | dict d =>
            simp only [hobj] at hc
            cases hrec : deepcopy fuel h (.entries d) with
            | none =>
              simp only [hrec] at hc
              exact Option.noConfusion hc
            | some pr =>
              obtain ⟨h1, res1⟩ := pr
              simp only [hrec] at hc
              cases res1 with
              | val v1 => exact Option.noConfusion hc
              | vals l1 => exact Option.noConfusion hc
              | entries d' =>
                obtain ⟨P1, R1⟩ := ih h (.entries d) h1 (.entries d') hrec
                simp only [Option.some.injEq, Prod.mk.injEq] at hc
                obtain ⟨hh, hr⟩ := hc
                subst hh
                subst hr
                constructor
                · exact heapPreserved_trans P1
                    (heapPreserved_halloc h.next h1 (.dict d') P1.1)
                · exact P1.1
          | list l =>
            simp only [hobj] at hc
            cases hrec : deepcopy fuel h (.vals l) with
            | none =>
              simp only [hrec] at hc
              exact Option.noConfusion hc
            | some pr =>
              obtain ⟨h1, res1⟩ := pr
              simp only [hrec] at hc
              cases res1 with
              | val v1 => exact Option.noConfusion hc
              | entries d1 => exact Option.noConfusion hc
              | vals l' =>
                obtain ⟨P1, R1⟩ := ih h (.vals l) h1 (.vals l') hrec
                simp only [Option.some.injEq, Prod.mk.injEq] at hc
                obtain ⟨hh, hr⟩ := hc
                subst hh
                subst hr
                constructor
                · exact heapPreserved_trans P1
                    (heapPreserved_halloc h.next h1 (.list l') P1.1)
                · exact P1.1
      | str s =>
        simp only [deepcopy, Option.some.injEq, Prod.mk.injEq] at hc
        obtain ⟨hh, hr⟩ := hc
        subst hh
        subst hr
        exact ⟨heapPreserved_refl _ _, trivial⟩
      | boolv b =>
        simp only [deepcopy, Option.some.injEq, Prod.mk.injEq] at hc
        obtain ⟨hh, hr⟩ := hc
        subst hh
        subst hr
        exact ⟨heapPreserved_refl _ _, trivial⟩
      | handle hs =>
        simp only [deepcopy, Option.some.injEq, Prod.mk.injEq] at hc
        obtain ⟨hh, hr⟩ := hc
        subst hh
        subst hr
        exact ⟨heapPreserved_refl _ _, trivial⟩
    | vals l =>
      cases l with
      | nil =>
        simp only [deepcopy, Option.some.injEq, Prod.mk.injEq] at hc
        obtain ⟨hh, hr⟩ := hc
        subst hh
        subst hr
        exact ⟨heapPreserved_refl _ _, by intro v hv; simp at hv⟩
      | cons v l =>
        simp only [deepcopy] at hc
        cases hrec1 : deepcopy fuel h (.val v) with
        | none =>
          simp only [hrec1] at hc
          exact Option.noConfusion hc
        | some pr1 =>
          obtain ⟨h1, res1⟩ := pr1
          simp only [hrec1] at hc
          cases res1 with
          | vals l1 => exact Option.noConfusion hc
          | entries d1 => exact Option.noConfusion hc
          | val v' =>
            cases hrec2 : deepcopy fuel h1 (.vals l) with
            | none =>
              simp only [hrec2] at hc
              exact Option.noConfusion hc
            | some pr2 =>
              obtain ⟨h2, res2⟩ := pr2
              simp only [hrec2] at hc
              cases res2 with
              | val v1 => exact Option.noConfusion hc
              | entries d1 => exact Option.noConfusion hc
              | vals l' =>
                obtain ⟨P1, R1⟩ := ih h (.val v) h1 (.val v') hrec1
                obtain ⟨P2, R2⟩ := ih h1 (.vals l) h2 (.vals l') hrec2
                simp only [Option.some.injEq, Prod.mk.injEq] at hc
                obtain ⟨hh, hr⟩ := hc
                subst hh
                subst hr
                refine ⟨heapPreserved_chain P1 P2, ?_⟩
                intro w hw
                rcases List.mem_cons.mp hw with hw | hw
                · subst hw; exact R1
                · exact hvalRefGE_mono P1.1 (R2 w hw)
    | entries l =>
      cases l with
      | nil =>
        simp only [deepcopy, Option.some.injEq, Prod.mk.injEq] at hc
        obtain ⟨hh, hr⟩ := hc
        subst hh
        subst hr
        exact ⟨heapPreserved_refl _ _, by intro p hp; simp at hp⟩
      | cons p l =>
        obtain ⟨k, v⟩ := p
        simp only [deepcopy] at hc
        cases hrec1 : deepcopy fuel h (.val v) with
        | none =>
          simp only [hrec1] at hc
          exact Option.noConfusion hc
        | some pr1 =>
          obtain ⟨h1, res1⟩ := pr1
          simp only [hrec1] at hc
          cases res1 with
          | vals l1 => exact Option.noConfusion hc
          | entries d1 => exact Option.noConfusion hc
          | val v' =>
            cases hrec2 : deepcopy fuel h1 (.entries l) with
            | none =>
              simp only [hrec2] at hc
              exact Option.noConfusion hc
            | some pr2 =>
              obtain ⟨h2, res2⟩ := pr2
              simp only [hrec2] at hc
              cases res2 with
              | val v1 => exact Option.noConfusion hc
              | vals l1 => exact Option.noConfusion hc
              | entries l' =>
                obtain ⟨P1, R1⟩ := ih h (.val v) h1 (.val v') hrec1
                obtain ⟨P2, R2⟩ := ih h1 (.entries l) h2 (.entries l') hrec2
                simp only [Option.some.injEq, Prod.mk.injEq] at hc
                obtain ⟨hh, hr⟩ := hc
                subst hh
                subst hr
                refine ⟨heapPreserved_chain P1 P2, ?_⟩
                intro w hw
                rcases List.mem_cons.mp hw with hw | hw
                · subst hw; exact R1
                · exact hvalRefGE_mono P1.1 (R2 w hw)

theorem heapInv_step_write_other (n0 pdRef : Nat) (h hX : Heap) (r : Nat)
    (k : String) (v : HVal) (hr : n0 ≤ r) (hne : r ≠ pdRef)
    (T : HeapInv n0 pdRef h hX) : HeapInv n0 pdRef h (hdictSet hX r k v) :=
  ⟨heapPreserved_trans T.1 (heapPreserved_hdictSet n0 hX r k v hr),
   by rw [hdictSet_next]; exact T.2.1,
   pdge_write_other n0 hX pdRef r k v hne T.2.2⟩

theorem heapInv_step_write_pd (n0 pdRef : Nat) (h hX : Heap) (k : String)
    (v : HVal) (hpda : n0 ≤ pdRef) (hv : hvalRefGE n0 v)
    (T : HeapInv n0 pdRef h hX) : HeapInv n0 pdRef h (hdictSet hX pdRef k v) :=
  ⟨heapPreserved_trans T.1 (heapPreserved_hdictSet n0 hX pdRef k v hpda),
   by rw [hdictSet_next]; exact T.2.1,
   pdge_hdictSet_pd n0 hX pdRef k v hv T.2.2⟩

theorem heapInv_step_del_pd (n0 pdRef : Nat) (h hX : Heap) (k : String)
    (hpda : n0 ≤ pdRef) (T : HeapInv n0 pdRef h hX) :
    HeapInv n0 pdRef h (hdictDel hX pdRef k) :=
  ⟨heapPreserved_trans T.1 (heapPreserved_hdictDel n0 hX pdRef k hpda),
   by rw [hdictDel_next]; exact T.2.1,
   pdge_hdictDel_pd n0 hX pdRef k T.2.2⟩

theorem heapInv_step_alloc (n0 pdRef : Nat) (h hX : Heap) (o : HObj)
    (hn : n0 ≤ h.next) (T : HeapInv n0 pdRef h hX) :
    HeapInv n0 pdRef h (halloc hX o).1 :=
  ⟨heapPreserved_trans T.1
      (heapPreserved_halloc n0 hX o (le_trans hn T.1.1)),
   Nat.lt_succ_of_lt T.2.1,
   pdge_halloc n0 hX pdRef o T.2.1 T.2.2⟩

theorem processSelectedH_frame (env : PyEnv) (packages : Registry)
    (ptype : PackageEndpointType) (ig : Bool) (pdRef : Nat) (h : Heap)
    (spv : HVal) (n0 : Nat) (hn : n0 ≤ h.next) (hpda : n0 ≤ pdRef)
    (hpdb : pdRef < h.next) (hpdge : PdGE n0 h pdRef) :
    HeapInv n0 pdRef h (processSelectedH env packages ptype ig pdRef h spv).1 := by
  have triv : HeapInv n0 pdRef h h := ⟨heapPreserved_refl n0 h, hpdb, hpdge⟩
  cases spv with
  | str s => simpa only [processSelectedH] using triv
  | boolv b => simpa only [processSelectedH] using triv
  | handle hh => simpa only [processSelectedH] using triv
  | ref spr =>
    simp only [processSelectedH]
    cases hobj : hget h spr with
    | none => exact triv
    | some o =>
      cases o with
      | list l => exact triv
      | dict sd =>
        dsimp only
        cases hep : alLookup sd "endpoint" with
        | none => exact triv
        | some ev =>
          cases ev with
          | boolv b => exact triv
          | ref r2 => exact triv
          | handle hh => exact triv
          | str s =>
            dsimp only
            have hInner : n0 ≤ (halloc h (HObj.dict [])).2 := hn
            have hneInner : (halloc h (HObj.dict [])).2 ≠ pdRef :=
              (Nat.ne_of_lt hpdb).symm
            have T0 : HeapInv n0 pdRef h (halloc h (HObj.dict [])).1 :=
              heapInv_step_alloc n0 pdRef h h (HObj.dict []) hn triv
            have T1 : HeapInv n0 pdRef h
                (hdictSet (halloc h (HObj.dict [])).1 pdRef (pyLower s)
                  (HVal.ref (halloc h (HObj.dict [])).2)) :=
              heapInv_step_write_pd n0 pdRef h _ _ _ hpda hInner T0
            have T2 : HeapInv n0 pdRef h
                (hdictSet (hdictSet (halloc h (HObj.dict [])).1 pdRef (pyLower s)
                    (HVal.ref (halloc h (HObj.dict [])).2))
                  (halloc h (HObj.dict [])).2 "settings" (HVal.ref spr)) :=
              heapInv_step_write_other n0 pdRef h _ _ _ _ hInner hneInner T1
            cases hty : alLookup packages ptype with
            | none => exact T2
            | some m =>
              dsimp only
              cases hme : alLookup m (pyLower s) with
              | some e =>
                dsimp only
                cases hinst : e.installed with
                | none => exact T2
                | some b =>
                  cases b with
                  | false => exact T2
                  | true =>
                    dsimp only
                    cases hload : load_package_endpoint env packages ptype (pyLower s) with
                    | error err => exact T2
                    | ok c =>
                      exact heapInv_step_write_other n0 pdRef h _ _ _ _
                        hInner hneInner T2
              | none =>
                dsimp only
                have T3 : HeapInv n0 pdRef h
                    (hdictSet (hdictSet (hdictSet (halloc h (HObj.dict [])).1 pdRef
                        (pyLower s) (HVal.ref (halloc h (HObj.dict [])).2))
                      (halloc h (HObj.dict [])).2 "settings" (HVal.ref spr))
                      (halloc h (HObj.dict [])).2 "settings" (HVal.ref spr)) :=
                  heapInv_step_write_other n0 pdRef h _ _ _ _ hInner hneInner T2
                by_cases hig : ig = true
                · simp only [hig, if_true]
                  exact T2
                · simp only [Bool.not_eq_true] at hig
                  simp only [hig, Bool.false_eq_true, if_false]
                  by_cases hfile : env.isFile (pyLower s ++ ".py") = false
                  · simp only [hfile, if_true]
                    cases himp : env.importModule (pyLower s) with
                    | ok mh =>
                      exact heapInv_step_write_other n0 pdRef h _ _ _ _
                        hInner hneInner
                        (heapInv_step_write_other n0 pdRef h _ _ _ _
                          hInner hneInner T3)
                    | error err =>
                      cases err with
                      | moduleNotFound mn =>
                        simp only [hig, Bool.false_eq_true, if_false]
                        exact T3
                      | attributeError a => exact T3
                      | missingDependency msg => exact T3
                      | colrevException msg => exact T3
                      | keyError k => exact T3
                      | assertionError => exact T3
                      | valueError => exact T3
                      | typeError => exact T3
                      | runtimeError msg => exact T3
                  · simp only [Bool.not_eq_false] at hfile
                    simp only [hfile]
                    cases himp : env.importModule (pyLower s) with
                    | ok mh =>
                      exact heapInv_step_write_other n0 pdRef h _ _ _ _
                        hInner hneInner
                        (heapInv_step_write_other n0 pdRef h _ _ _ _
                          hInner hneInner T3)
                    | error err => exact T3

theorem heapInv_comp {n0 pdRef : Nat} {h h1 h2 : Heap}
    (A : HeapInv n0 pdRef h h1) (B : HeapInv n0 pdRef h1 h2) :
    HeapInv n0 pdRef h h2 :=
  ⟨heapPreserved_trans A.1 B.1, B.2.1, B.2.2⟩

theorem getPackagesGoH_frame (env : PyEnv) (packages : Registry)
    (ptype : PackageEndpointType) (ig : Bool) (pdRef : Nat) (n0 : Nat) :
    ∀ (l : List HVal) (h : Heap), n0 ≤ h.next → n0 ≤ pdRef → pdRef < h.next →
    PdGE n0 h pdRef →
    HeapInv n0 pdRef h (getPackagesGoH env packages ptype ig pdRef h l).1 := by
  intro l
  induction l with
  | nil =>
    intro h hn hpda hpdb hpdge
    exact ⟨heapPreserved_refl n0 h, hpdb, hpdge⟩
  | cons v rest ih =>
    intro h hn hpda hpdb hpdge
    rw [getPackagesGoH]
    cases hps : processSelectedH env packages ptype ig pdRef h v with
    | mk h1 res =>
      have A : HeapInv n0 pdRef h h1 := by
        have hA := processSelectedH_frame env packages ptype ig pdRef h v n0
          hn hpda hpdb hpdge
        rwa [hps] at hA
      cases res with
      | ok u =>
        dsimp only
        exact heapInv_comp A (ih h1 (le_trans hn A.1.1) hpda A.2.1 A.2.2)
      | error e =>
        dsimp only
        exact A

theorem hget_halloc_self (h : Heap) (o : HObj) :
    hget (halloc h o).1 (halloc h o).2 = some o := by
  show alLookup ((h.next, o) :: h.mem) h.next = some o
  rw [alLookup, if_pos rfl]

theorem getPackagesDictH_frame (fuel : Nat) (env : PyEnv) (packages : Registry)
    (ptype : PackageEndpointType) (ig : Bool) (h : Heap) (selRef : Nat) :
    HeapPreserved h.next h (getPackagesDictH fuel env packages ptype ig h selRef).1 ∧
    (∀ pdRef, (getPackagesDictH fuel env packages ptype ig h selRef).2 = .ok pdRef →
      h.next ≤ pdRef ∧
      pdRef < (getPackagesDictH fuel env packages ptype ig h selRef).1.next ∧
      PdGE h.next (getPackagesDictH fuel env packages ptype ig h selRef).1 pdRef) := by
  rw [getPackagesDictH]
  cases hsel : hget h selRef with
  | none =>
    exact ⟨heapPreserved_refl _ _, fun pdRef habs => Except.noConfusion habs⟩
  | some o =>
    cases o with
    | dict d =>
      exact ⟨heapPreserved_refl _ _, fun pdRef habs => Except.noConfusion habs⟩
    | list l =>
      dsimp only
      cases hcp : deepcopy fuel h (.vals l) with
      | none =>
        exact ⟨heapPreserved_refl _ _, fun pdRef habs => Except.noConfusion habs⟩
      | some pr =>
        obtain ⟨h1, res1⟩ := pr
        obtain ⟨CP, CR⟩ := deepcopy_spec fuel h (.vals l) h1 res1 hcp
        cases res1 with
        | val v1 =>
          exact ⟨CP, fun pdRef habs => Except.noConfusion habs⟩
        | entries d1 =>
          exact ⟨CP, fun pdRef habs => Except.noConfusion habs⟩
        | vals l' =>
          dsimp only
          have HAL : HeapPreserved h.next h (halloc h1 (HObj.dict [])).1 :=
            heapPreserved_trans CP
              (heapPreserved_halloc h.next h1 (HObj.dict []) CP.1)
          have hpd0 : PdGE h.next (halloc h1 (HObj.dict [])).1
              (halloc h1 (HObj.dict [])).2 := by
            intro d hd
            rw [hget_halloc_self] at hd
            simp only [Option.some.injEq, HObj.dict.injEq] at hd
            subst hd
            intro p hp
            simp at hp
          have GH := getPackagesGoH_frame env packages ptype ig
            (halloc h1 (HObj.dict [])).2 h.next l' (halloc h1 (HObj.dict [])).1
            (le_trans CP.1 (Nat.le_succ _)) CP.1 (Nat.lt_succ_self _) hpd0
          cases hgo : getPackagesGoH env packages ptype ig
              (halloc h1 (HObj.dict [])).2 (halloc h1 (HObj.dict [])).1 l' with
          | mk h3 res3 =>
            rw [hgo] at GH
            cases res3 with
            | ok u =>
              dsimp only
              refine ⟨heapPreserved_trans HAL GH.1, fun pdRef hok => ?_⟩
              have hpd : pdRef = (halloc h1 (HObj.dict [])).2 :=
                (Except.ok.inj hok).symm
              subst hpd
              exact ⟨CP.1, GH.2.1, GH.2.2⟩
            | error e =>
              dsimp only
              exact ⟨heapPreserved_trans HAL GH.1,
                fun pdRef habs => Except.noConfusion habs⟩

theorem dropBrokenGoH_frame (env : PyEnv) (cc : String) (ig : Bool)
    (pdRef : Nat) (n0 : Nat) (hpda : n0 ≤ pdRef) :
    ∀ (items : List (String × HVal)) (h : Heap),
    (∀ p ∈ items, hvalRefGE n0 p.2) →
    HeapPreserved n0 h (dropBrokenGoH env cc ig pdRef h items).1 := by
  intro items
  induction items with
  | nil => intro h hit; exact heapPreserved_refl n0 h
  | cons p rest ih =>
    obtain ⟨k, v⟩ := p
    intro h hit
    have hitRest : ∀ q ∈ rest, hvalRefGE n0 q.2 :=
      fun q hq => hit q (List.mem_cons_of_mem _ hq)
    cases v with
    | str s => simp only [dropBrokenGoH]; exact heapPreserved_refl n0 h
    | boolv b => simp only [dropBrokenGoH]; exact heapPreserved_refl n0 h
    | handle hh => simp only [dropBrokenGoH]; exact heapPreserved_refl n0 h
    | ref ir =>
      have hir : n0 ≤ ir := hit (k, .ref ir) (List.mem_cons_self _ _)
      simp only [dropBrokenGoH]
      cases hobj : hget h ir with
      | none => exact heapPreserved_refl n0 h
      | some o =>
        cases o with
        | list l => exact heapPreserved_refl n0 h
        | dict idd =>
          dsimp only
          cases hcf : alLookup idd "custom_flag" with
          | none => exact ih h hitRest
          | some cf =>
            dsimp only
            cases hepv : alLookup idd "endpoint" with
            | none => exact heapPreserved_refl n0 h
            | some ev =>
              cases ev with
              | str s => exact heapPreserved_refl n0 h
              | boolv b => exact heapPreserved_refl n0 h
              | ref r2 => exact heapPreserved_refl n0 h
              | handle eh =>
                dsimp only
                cases hga : env.getattrM eh cc with
                | ok c =>
                  dsimp only
                  refine heapPreserved_trans ?_ (ih _ hitRest)
                  exact heapPreserved_trans
                    (heapPreserved_hdictSet n0 h ir "endpoint" (.handle c) hir)
                    (heapPreserved_hdictDel n0 _ ir "custom_flag" hir)
                | error err =>
                  cases err with
                  | attributeError a =>
                    dsimp only
                    by_cases hig : ig = false
                    · simp only [hig, if_pos rfl]
                      exact heapPreserved_refl n0 h
                    · simp only [Bool.not_eq_false] at hig
                      simp only [hig]
                      exact heapPreserved_hdictDel n0 h pdRef k hpda
                  | moduleNotFound mn => exact heapPreserved_refl n0 h
                  | missingDependency msg => exact heapPreserved_refl n0 h
                  | colrevException msg => exact heapPreserved_refl n0 h
                  | keyError k2 => exact heapPreserved_refl n0 h
                  | assertionError => exact heapPreserved_refl n0 h
                  | valueError => exact heapPreserved_refl n0 h
                  | typeError => exact heapPreserved_refl n0 h
                  | runtimeError msg => exact heapPreserved_refl n0 h

theorem dropBrokenH_frame (env : PyEnv) (cc : String) (ig : Bool) (pdRef : Nat)
    (n0 : Nat) (h : Heap) (hpda : n0 ≤ pdRef) (hpdge : PdGE n0 h pdRef) :
    HeapPreserved n0 h (dropBrokenH env cc ig pdRef h).1 := by
  rw [dropBrokenH]
  cases hobj : hget h pdRef with
  | none => exact heapPreserved_refl n0 h
  | some o =>
    cases o with
    | list l => exact heapPreserved_refl n0 h
    | dict d =>
      dsimp only
      exact dropBrokenGoH_frame env cc ig pdRef n0 hpda d h
        (fun p hp => hpdge d hobj p hp)

theorem instantiateGoH_frame (env : PyEnv) (opn ifn : String)
    (ptype : PackageEndpointType) (io_ : Bool) (pdRef : Nat) (n0 : Nat)
    (hpda : n0 ≤ pdRef) :
    ∀ (items : List (String × HVal)) (h : Heap),
    HeapPreserved n0 h (instantiateGoH env opn ifn ptype io_ pdRef h items).1 := by
  intro items
  induction items with
  | nil => intro h; exact heapPreserved_refl n0 h
  | cons p rest ih =>
    obtain ⟨pid, v⟩ := p
    intro h
    cases v with
    | str s => simp only [instantiateGoH]; exact heapPreserved_refl n0 h
    | boolv b => simp only [instantiateGoH]; exact heapPreserved_refl n0 h
    | handle hh => simp only [instantiateGoH]; exact heapPreserved_refl n0 h
    | ref ir =>
      simp only [instantiateGoH]
      cases hobj : hget h ir with
      | none => exact heapPreserved_refl n0 h
      | some o =>
        cases o with
        | list l => exact heapPreserved_refl n0 h
        | dict idd =>
          dsimp only
          cases hsv : alLookup idd "settings" with
          | none => exact heapPreserved_refl n0 h
          | some sv =>
            dsimp only
            cases hepv : alLookup idd "endpoint" with
            | none => exact heapPreserved_refl n0 h
            | some ev =>
              cases ev with
              | str s => exact heapPreserved_refl n0 h
              | boolv b => exact heapPreserved_refl n0 h
              | ref r2 => exact heapPreserved_refl n0 h
              | handle eh =>
                dsimp only
                cases io_ with
                | true =>
                  rw [if_pos rfl]
                  cases hin : env.instantiate eh
                      [(opn, .op), ("settings", settingsParam sv)] with
                  | error e => exact heapPreserved_refl n0 h
                  | ok inst =>
                    dsimp only
                    cases hver : env.verify ifn inst with
                    | error e => exact heapPreserved_refl n0 h
                    | ok u =>
                      dsimp only
                      exact heapPreserved_trans
                        (heapPreserved_hdictSet n0 h pdRef pid (.handle inst) hpda)
                        (ih _)
                | false =>
                  rw [if_neg Bool.false_ne_true]
                  exact heapPreserved_trans
                    (heapPreserved_hdictSet n0 h pdRef pid (.handle eh) hpda)
                    (ih _)

/-- C8: the heap embedding of `load_packages` never mutates any object
that existed before the call: `__get_packages_dict` deep-copies the
caller's `selected_packages` list into fresh cells, and every later
write of the call targets only the freshly built `packages_dict` and
its inner dicts.  Hence after `load_packages` returns — normally or
with an exception — the caller's `selected_packages` list object and
every settings dict (indeed every pre-existing heap object) is
unchanged. -/
theorem C8_load_packages_frame (fuel : Nat) (env : PyEnv)
    (packages : Registry) (ptype : PackageEndpointType) (ig io_ : Bool)
    (h : Heap) (selRef : Nat) :
    HeapPreserved h.next h
      (loadPackagesH fuel env packages ptype ig io_ h selRef).1 := by
  rw [loadPackagesH]
  by_cases hmem : ptype ∈ packageTypeOverviewKeys
  · rw [if_pos hmem]
    obtain ⟨P1, P2⟩ := getPackagesDictH_frame fuel env packages ptype ig h selRef
    cases hg : getPackagesDictH fuel env packages ptype ig h selRef with
    | mk h1 res1 =>
      rw [hg] at P1 P2
      cases res1 with
      | error e =>
        dsimp only
        exact P1
      | ok pdRef =>
        dsimp only
        obtain ⟨hge, hlt, hpdge⟩ := P2 pdRef rfl
        have DB := dropBrokenH_frame env (package_type_overview ptype).custom_class
          ig pdRef h.next h1 hge hpdge
        cases hdb : dropBrokenH env (package_type_overview ptype).custom_class
            ig pdRef h1 with
        | mk h2 res2 =>
          rw [hdb] at DB
          cases res2 with
          | error e =>
            dsimp only
            exact heapPreserved_trans P1 DB
          | ok u =>
            dsimp only
            cases hpd2 : hget h2 pdRef with
            | none => exact heapPreserved_trans P1 DB
            | some o =>
              cases o with
              | list l => exact heapPreserved_trans P1 DB
              | dict d =>
                dsimp only
                have IG := instantiateGoH_frame env
                  (package_type_overview ptype).operation_name
                  (package_type_overview ptype).import_name ptype io_ pdRef
                  h.next hge d h2
                cases hig2 : instantiateGoH env
                    (package_type_overview ptype).operation_name
                    (package_type_overview ptype).import_name ptype io_ pdRef
                    h2 d with
                | mk h3 res3 =>
                  rw [hig2] at IG
                  cases res3 with
                  | ok u2 =>
                    dsimp only
                    exact heapPreserved_trans P1 (heapPreserved_trans DB IG)
                  | error e =>
                    dsimp only
                    exact heapPreserved_trans P1 (heapPreserved_trans DB IG)
  · rw [if_neg hmem]
    exact heapPreserved_refl _ _
